import Mathlib

/-!
Verification of the naga module analyzer (`src/proc/analyzer.rs`).

The analyzer walks a shader-IR module and computes, per function:
control-flow uniformity, exit flags, global-variable use masks,
image/sampler pairs and expression reference counts.

Handles into arenas are modelled as plain `Nat` indices; arenas as `List`s.
-/

set_option linter.unusedVariables false

namespace Naga

/-- Modelled from the spec: shader built-in inputs/outputs (spec §3, §4.2.1,
glossary).  The analyzer only distinguishes `FrontFacing`, `WorkGroupId` and
`WorkGroupSize` from all remaining built-ins, so a representative set of the
others is included. -/
inductive BuiltIn where
  | FrontFacing
  | WorkGroupId
  | WorkGroupSize
  | VertexIndex
  | FragCoord
  | GlobalInvocationId
  | LocalInvocationId
  | InstanceIndex
deriving DecidableEq, Repr

/-- Modelled from the spec: storage classes of global variables (spec glossary). -/
inductive StorageClass where
  | Input
  | Output
  | Function
  | Private
  | WorkGroup
  | Uniform
  | PushConstant
  | Handle
  | Storage
deriving DecidableEq, Repr

/-- Modelled from the spec: interpolation qualifiers; the analyzer only tests
for `Flat`. -/
inductive Interpolation where
  | Flat
  | Perspective
  | Linear
deriving DecidableEq, Repr

/-- Modelled from the spec: a global variable's binding. -/
inductive Binding where
  | BuiltIn (b : BuiltIn)
  | Location (n : Nat)
deriving DecidableEq, Repr

/-- Modelled from the spec: storage access flags of a global variable;
the analyzer only tests whether `STORE` is present. -/
structure StorageAccess where
  load : Bool
  store : Bool
deriving DecidableEq, Repr

/-- Modelled from the spec: the part of a global variable the analyzer reads. -/
structure GlobalVariable where
  binding : Option Binding
  class' : StorageClass
  interpolation : Option Interpolation
  storage_access : StorageAccess
deriving DecidableEq, Repr

def GlobalVariable.dummy : GlobalVariable :=
  { binding := none
    class' := StorageClass.Private
    interpolation := none
    storage_access := { load := false, store := false } }

/-- Modelled from the spec: sample level of an `ImageSample` expression. -/
inductive SampleLevel where
  | Auto
  | Zero
  | Exact (h : Nat)
  | Bias (h : Nat)
  | Gradient (x y : Nat)
deriving DecidableEq, Repr

/-- Modelled from the spec: image queries; the analyzer only looks at
`Size {level := some h}`. -/
inductive ImageQuery where
  | Size (level : Option Nat)
  | NumLevels
  | NumLayers
  | NumSamples
deriving DecidableEq, Repr

/-- Modelled from the spec: IR expression variants (spec §3).  Operand handles
are `Nat` indices into the owning function's expression arena. -/
inductive Expression where
  | Access (base index : Nat)
  | AccessIndex (base : Nat) (index : Nat)
  | Constant (c : Nat)
  | Compose (components : List Nat)
  | FunctionArgument (i : Nat)
  | GlobalVariable (g : Nat)
  | LocalVariable (l : Nat)
  | Load (pointer : Nat)
  | ImageSample (image sampler coordinate : Nat) (array_index : Option Nat)
      (offset : Option Nat) (level : SampleLevel) (depth_ref : Option Nat)
  | ImageLoad (image coordinate : Nat) (array_index index : Option Nat)
  | ImageQuery (image : Nat) (query : ImageQuery)
  | Unary (expr : Nat)
  | Binary (left right : Nat)
  | Select (condition accept reject : Nat)
  | Derivative (expr : Nat)
  | Relational (argument : Nat)
  | Math (arg : Nat) (arg1 arg2 : Option Nat)
  | As (expr : Nat)
  | Call (function : Nat)
  | ArrayLength (expr : Nat)
deriving DecidableEq, Repr

def Expression.dummy : Expression := Expression.Constant 0

/-- Modelled from the spec: IR statement variants (spec §3).  A switch case is
a triple (value, body, fall_through). -/
inductive Statement where
  | Emit
  | Break
  | Continue
  | Kill
  | Block (body : List Statement)
  | If (condition : Nat) (accept reject : List Statement)
  | Switch (selector : Nat) (cases : List (Int × List Statement × Bool))
      (default : List Statement)
  | Loop (body continuing : List Statement)
  | Return (value : Option Nat)
  | Store (pointer value : Nat)
  | ImageStore (image coordinate : Nat) (array_index : Option Nat) (value : Nat)
  | Call (function : Nat) (arguments : List Nat) (result : Option Nat)

/-- Modelled from the spec: a function is an expression arena plus a body. -/
structure Function where
  expressions : List Expression
  body : List Statement

/-- Modelled from the spec: a module's arenas; entry points own a function. -/
structure Module where
  global_variables : List GlobalVariable
  functions : List Function
  entry_points : List Function

/-! ## Analyzer-owned entities (`src/proc/analyzer.rs`) -/

/-- Uniform control flow characteristics of an expression or block. -/
structure Uniformity where
  /-- A child expression with non-uniform result. -/
  non_uniform_result : Option Nat
  /-- A child expression that requires uniform control flow. -/
  require_uniform : Option Nat
deriving DecidableEq, Repr

/-- `Uniformity::default()`. -/
def Uniformity.default : Uniformity := { non_uniform_result := none, require_uniform := none }

/-- `impl BitOr for Uniformity`: per-field `self.f.or(other.f)` (left wins). -/
def Uniformity.bitor (self other : Uniformity) : Uniformity :=
  { non_uniform_result := self.non_uniform_result.or other.non_uniform_result
    require_uniform := self.require_uniform.or other.require_uniform }

/-- `Uniformity::non_uniform_result(expr)`. -/
def Uniformity.nonUniformResult (expr : Nat) : Uniformity :=
  { non_uniform_result := some expr, require_uniform := none }

/-- `Uniformity::require_uniform(expr)`. -/
def Uniformity.requireUniform (expr : Nat) : Uniformity :=
  { non_uniform_result := none, require_uniform := some expr }

/-- Exit flags of a block: bitset over MAY_RETURN and MAY_KILL. -/
structure ExitFlags where
  may_return : Bool
  may_kill : Bool
deriving DecidableEq, Repr

def ExitFlags.empty : ExitFlags := { may_return := false, may_kill := false }

def ExitFlags.MAY_RETURN : ExitFlags := { may_return := true, may_kill := false }

def ExitFlags.MAY_KILL : ExitFlags := { may_return := false, may_kill := true }

/-- Bitset union (`|`). -/
def ExitFlags.union (self other : ExitFlags) : ExitFlags :=
  { may_return := self.may_return || other.may_return
    may_kill := self.may_kill || other.may_kill }

/-- Bitset containment: every flag of `other` is set in `self`. -/
def ExitFlags.contains (self other : ExitFlags) : Bool :=
  (!other.may_return || self.may_return) && (!other.may_kill || self.may_kill)

/-- How a global variable is used: bitset over READ, WRITE, QUERY. -/
structure GlobalUse where
  read : Bool
  write : Bool
  query : Bool
deriving DecidableEq, Repr

def GlobalUse.empty : GlobalUse := { read := false, write := false, query := false }

def GlobalUse.READ : GlobalUse := { read := true, write := false, query := false }

def GlobalUse.WRITE : GlobalUse := { read := false, write := true, query := false }

def GlobalUse.QUERY : GlobalUse := { read := false, write := false, query := true }

/-- Bitset union (`|`). -/
def GlobalUse.or (self other : GlobalUse) : GlobalUse :=
  { read := self.read || other.read
    write := self.write || other.write
    query := self.query || other.query }

/-- Bitset containment: every flag of `other` is set in `self`. -/
def GlobalUse.contains (self other : GlobalUse) : Bool :=
  (!other.read || self.read) && (!other.write || self.write) && (!other.query || self.query)

/-- An (image, sampler) pair used with sampling. -/
structure SamplingKey where
  image : Nat
  sampler : Nat
deriving DecidableEq, Repr

/-- Per-expression analysis info. -/
structure ExpressionInfo where
  uniformity : Uniformity
  ref_count : Nat
  assignable_global : Option Nat
deriving DecidableEq, Repr

/-- `ExpressionInfo::default()`. -/
def ExpressionInfo.default : ExpressionInfo :=
  { uniformity := Uniformity.default, ref_count := 0, assignable_global := none }

/-- Per-function analysis info.  `sampling_set` keeps set semantics via a
duplicate-free insertion into a list. -/
structure FunctionInfo where
  uniformity : Uniformity
  may_kill : Bool
  sampling_set : List SamplingKey
  global_uses : List GlobalUse
  expressions : List ExpressionInfo
deriving DecidableEq, Repr

/-- Out-of-range stand-in for `other_functions[i]` lookups. -/
def FunctionInfo.dummy : FunctionInfo :=
  { uniformity := Uniformity.default
    may_kill := false
    sampling_set := []
    global_uses := []
    expressions := [] }

/-- Disruptor of the uniform control flow. -/
inductive UniformityDisruptor where
  | Expression (h : Nat)
  | Return
  | Kill
deriving DecidableEq, Repr

/-- `Uniformity::disruptor`. -/
def Uniformity.disruptor (self : Uniformity) : Option UniformityDisruptor :=
  self.non_uniform_result.map UniformityDisruptor.Expression

/-- `UniformityDisruptor::from_exit`. -/
def UniformityDisruptor.from_exit (flags : ExitFlags) : Option UniformityDisruptor :=
  if flags.contains ExitFlags.MAY_RETURN then
    some UniformityDisruptor.Return
  else if flags.contains ExitFlags.MAY_KILL then
    some UniformityDisruptor.Kill
  else
    none

inductive AnalysisError where
  | ExpectedGlobalVariable (e : Expression)
  | NonUniformControlFlow (h : Nat) (d : UniformityDisruptor)
deriving DecidableEq, Repr

/-! ## FunctionInfo accessors and helpers -/

def FunctionInfo.global_variable_count (self : FunctionInfo) : Nat :=
  self.global_uses.length

def FunctionInfo.expression_count (self : FunctionInfo) : Nat :=
  self.expressions.length

/-- `FunctionInfo::dominates_global_use`: zip-wise containment check over the
two `global_uses` masks. -/
def FunctionInfo.dominates_global_use (self other : FunctionInfo) : Bool :=
  (self.global_uses.zip other.global_uses).all fun p => p.1.contains p.2

/-- Duplicate-free list insertion, standing in for `HashSet::insert`. -/
def insertKey (s : List SamplingKey) (k : SamplingKey) : List SamplingKey :=
  if k ∈ s then s else s ++ [k]

/-- `self.global_uses.iter_mut().zip(other.iter())` with `*mine |= *other`:
elements of `mine` beyond `other`'s length are unchanged. -/
def zipOr : List GlobalUse → List GlobalUse → List GlobalUse
  | mine, [] => mine
  | [], _ => []
  | m :: ms, o :: os => m.or o :: zipOr ms os

/-- `FunctionInfo::add_ref_impl`: bump the ref count of `handle`, fold the
given use into the assignable global (if any), return the expression's
uniformity. -/
def FunctionInfo.add_ref_impl (self : FunctionInfo) (handle : Nat) (global_use : GlobalUse) :
    FunctionInfo × Uniformity :=
  let info := self.expressions.getD handle ExpressionInfo.default
  let self1 : FunctionInfo :=
    { self with expressions :=
        self.expressions.set handle { info with ref_count := info.ref_count + 1 } }
  let self2 : FunctionInfo :=
    match info.assignable_global with
    | some global =>
      { self1 with global_uses :=
          (self1.global_uses.set global
            ((self1.global_uses.getD global GlobalUse.empty).or global_use)) }
    | none => self1
  (self2, info.uniformity)

/-- `FunctionInfo::add_ref`: a value-type reference marks the global as READ. -/
def FunctionInfo.add_ref (self : FunctionInfo) (handle : Nat) : FunctionInfo × Uniformity :=
  self.add_ref_impl handle GlobalUse.READ

/-- `FunctionInfo::add_assignable_ref`: bump the ref count and propagate the
assignable global up the chain through the `assignable_global` carry.
Returns `none` exactly when the source would hit its `unreachable` panic,
i.e. when the carry is already occupied as a new global is propagated. -/
def FunctionInfo.add_assignable_ref (self : FunctionInfo) (handle : Nat)
    (assignable_global : Option Nat) :
    Option (FunctionInfo × Option Nat × Uniformity) :=
  let info := self.expressions.getD handle ExpressionInfo.default
  let self1 : FunctionInfo :=
    { self with expressions :=
        self.expressions.set handle { info with ref_count := info.ref_count + 1 } }
  match info.assignable_global with
  | some global =>
    match assignable_global with
    | some _ => none
    | none => some (self1, some global, info.uniformity)
  | none => some (self1, assignable_global, info.uniformity)

/-- `FunctionInfo::process_call`: union the callee's sampling set and global
uses into ours; return the callee's uniformity. -/
def FunctionInfo.process_call (self : FunctionInfo) (info : FunctionInfo) :
    FunctionInfo × Uniformity :=
  let self1 : FunctionInfo :=
    { self with sampling_set := info.sampling_set.foldl insertKey self.sampling_set }
  let self2 : FunctionInfo :=
    { self1 with global_uses := zipOr self1.global_uses info.global_uses }
  (self2, info.uniformity)

/-- The single write of `self.expressions[handle]` at the end of
`process_expression`: the fresh info always has `ref_count = 0`. -/
def FunctionInfo.finishExpression (self : FunctionInfo) (handle : Nat)
    (uniformity : Uniformity) (assignable_global : Option Nat) : FunctionInfo :=
  { self with expressions :=
      (self.expressions.set handle
        { uniformity := uniformity, ref_count := 0, assignable_global := assignable_global }) }

/-- `FunctionInfo::process_expression`.  The outer `Option` is `none` exactly
when the source would panic in `add_assignable_ref`; the inner `Except`
carries `AnalysisError`. -/
def FunctionInfo.process_expression (self : FunctionInfo) (handle : Nat)
    (expression_arena : List Expression) (global_var_arena : List GlobalVariable)
    (other_functions : List FunctionInfo) :
    Option (Except AnalysisError FunctionInfo) :=
  match expression_arena.getD handle Expression.dummy with
  | .Access base index =>
    match self.add_assignable_ref base none with
    | none => none
    | some (s1, assignable_global, u1) =>
      let (s2, u2) := s1.add_ref index
      some (.ok (s2.finishExpression handle (u1.bitor u2) assignable_global))
  | .AccessIndex base _ =>
    match self.add_assignable_ref base none with
    | none => none
    | some (s1, assignable_global, u1) =>
      some (.ok (s1.finishExpression handle u1 assignable_global))
  | .Constant _ => some (.ok (self.finishExpression handle Uniformity.default none))
  | .Compose components =>
    let (s1, accum) := components.foldl
      (fun (p : FunctionInfo × Uniformity) comp =>
        let (s, u) := p.1.add_ref comp
        (s, p.2.bitor u))
      (self, Uniformity.default)
    some (.ok (s1.finishExpression handle accum none))
  | .FunctionArgument _ =>
    some (.ok (self.finishExpression handle (Uniformity.nonUniformResult handle) none))
  | .GlobalVariable gh =>
    let var := global_var_arena.getD gh GlobalVariable.dummy
    let uniform : Bool :=
      match var.binding with
      | some (.BuiltIn built_in) =>
        match built_in with
        -- per-polygon and per-work-group built-ins are uniform
        | .FrontFacing | .WorkGroupId | .WorkGroupSize => true
        | _ => false
      | _ =>
        match var.class' with
        -- only flat inputs are uniform
        | .Input => var.interpolation == some Interpolation.Flat
        | .Output | .Function | .Private | .WorkGroup => false
        -- uniform data
        | .Uniform | .PushConstant => true
        -- storage data is only uniform when read-only
        | .Handle | .Storage => !var.storage_access.store
    let uniformity :=
      if uniform then Uniformity.default else Uniformity.nonUniformResult handle
    some (.ok (self.finishExpression handle uniformity (some gh)))
  | .LocalVariable _ =>
    some (.ok (self.finishExpression handle (Uniformity.nonUniformResult handle) none))
  | .Load pointer =>
    let (s1, u) := self.add_ref pointer
    some (.ok (s1.finishExpression handle u none))
  | .ImageSample image sampler coordinate array_index _offset level depth_ref =>
    match expression_arena.getD image Expression.dummy with
    | .GlobalVariable image_var =>
      match expression_arena.getD sampler Expression.dummy with
      | .GlobalVariable sampler_var =>
        let s0 : FunctionInfo :=
          { self with sampling_set :=
              insertKey self.sampling_set { image := image_var, sampler := sampler_var } }
        let (s1, array_flags) :=
          match array_index with
          | some h => s0.add_ref h
          | none => (s0, Uniformity.default)
        let (s2, level_flags) :=
          match level with
          -- implicit derivatives for LOD require uniform
          | .Auto => (s1, Uniformity.requireUniform handle)
          | .Zero => (s1, Uniformity.default)
          | .Exact h => s1.add_ref h
          | .Bias h => s1.add_ref h
          | .Gradient x y =>
            let (sa, ux) := s1.add_ref x
            let (sb, uy) := sa.add_ref y
            (sb, ux.bitor uy)
        let (s3, dref_flags) :=
          match depth_ref with
          | some h => s2.add_ref h
          | none => (s2, Uniformity.default)
        let (s4, u_image) := s3.add_ref image
        let (s5, u_sampler) := s4.add_ref sampler
        let (s6, u_coordinate) := s5.add_ref coordinate
        some (.ok (s6.finishExpression handle
          (((((u_image.bitor u_sampler).bitor u_coordinate).bitor array_flags).bitor
            level_flags).bitor dref_flags) none))
      | other => some (.error (.ExpectedGlobalVariable other))
    | other => some (.error (.ExpectedGlobalVariable other))
  | .ImageLoad image coordinate array_index index =>
    let (s1, array_flags) :=
      match array_index with
      | some h => self.add_ref h
      | none => (self, Uniformity.default)
    let (s2, index_flags) :=
      match index with
      | some h => s1.add_ref h
      | none => (s1, Uniformity.default)
    let (s3, u_image) := s2.add_ref image
    let (s4, u_coordinate) := s3.add_ref coordinate
    some (.ok (s4.finishExpression handle
      (((u_image.bitor u_coordinate).bitor array_flags).bitor index_flags) none))
  | .ImageQuery image query =>
    let (s1, query_flags) :=
      match query with
      | .Size (some h) => self.add_ref h
      | _ => (self, Uniformity.default)
    let (s2, u_image) := s1.add_ref_impl image GlobalUse.QUERY
    some (.ok (s2.finishExpression handle (u_image.bitor query_flags) none))
  | .Unary expr =>
    let (s1, u) := self.add_ref expr
    some (.ok (s1.finishExpression handle u none))
  | .Binary left right =>
    let (s1, u1) := self.add_ref left
    let (s2, u2) := s1.add_ref right
    some (.ok (s2.finishExpression handle (u1.bitor u2) none))
  | .Select condition accept reject =>
    let (s1, u1) := self.add_ref condition
    let (s2, u2) := s1.add_ref accept
    let (s3, u3) := s2.add_ref reject
    some (.ok (s3.finishExpression handle ((u1.bitor u2).bitor u3) none))
  | .Derivative expr =>
    -- explicit derivatives require uniform
    let (s1, u) := self.add_ref expr
    some (.ok (s1.finishExpression handle ((Uniformity.requireUniform handle).bitor u) none))
  | .Relational argument =>
    let (s1, u) := self.add_ref argument
    some (.ok (s1.finishExpression handle u none))
  | .Math arg arg1 arg2 =>
    let (s1, arg1_flags) :=
      match arg1 with
      | some h => self.add_ref h
      | none => (self, Uniformity.default)
    let (s2, arg2_flags) :=
      match arg2 with
      | some h => s1.add_ref h
      | none => (s1, Uniformity.default)
    let (s3, u_arg) := s2.add_ref arg
    some (.ok (s3.finishExpression handle ((u_arg.bitor arg1_flags).bitor arg2_flags) none))
  | .As expr =>
    let (s1, u) := self.add_ref expr
    some (.ok (s1.finishExpression handle u none))
  | .Call function =>
    let (s1, u) := self.process_call (other_functions.getD function FunctionInfo.dummy)
    some (.ok (s1.finishExpression handle u none))
  | .ArrayLength expr =>
    let (s1, u) := self.add_ref_impl expr GlobalUse.QUERY
    some (.ok (s1.finishExpression handle u none))

/-! ## Block analyzer -/

mutual

/-- One iteration body of the `for statement in statements` loop of
`FunctionInfo::process_block`: the big `match *statement`. -/
def FunctionInfo.process_statement (self : FunctionInfo) (stmt : Statement)
    (other_functions : List FunctionInfo) (disruptor : Option UniformityDisruptor) :
    Except AnalysisError (FunctionInfo × Uniformity × ExitFlags) :=
  match stmt with
  | .Emit | .Break | .Continue => .ok (self, Uniformity.default, ExitFlags.empty)
  | .Kill => .ok (self, Uniformity.default, ExitFlags.MAY_KILL)
  | .Block b => self.process_block b other_functions disruptor
  | .If condition accept reject =>
    let (s1, condition_uniformity) := self.add_ref condition
    match condition_uniformity.require_uniform, disruptor with
    | some expr, some cause => .error (.NonUniformControlFlow expr cause)
    | _, _ =>
      let branch_disruptor := disruptor.or condition_uniformity.disruptor
      match s1.process_block accept other_functions branch_disruptor with
      | .error e => .error e
      | .ok (s2, accept_uniformity, accept_exit) =>
        match s2.process_block reject other_functions branch_disruptor with
        | .error e => .error e
        | .ok (s3, reject_uniformity, reject_exit) =>
          .ok (s3, (condition_uniformity.bitor accept_uniformity).bitor reject_uniformity,
            accept_exit.union reject_exit)
  | .Switch selector cases default =>
    let (s1, uniformity) := self.add_ref selector
    let branch_disruptor := disruptor.or uniformity.disruptor
    match s1.process_cases cases other_functions branch_disruptor disruptor
        uniformity ExitFlags.empty with
    | .error e => .error e
    | .ok (s2, u2, e2) =>
      match s2.process_block default other_functions branch_disruptor with
      | .error e => .error e
      | .ok (s3, default_uniformity, default_exit) =>
        .ok (s3, u2.bitor default_uniformity, e2.union default_exit)
  | .Loop body continuing =>
    match self.process_block body other_functions disruptor with
    | .error e => .error e
    | .ok (s1, body_uniformity, body_exit) =>
      let branch_disruptor := disruptor.or (UniformityDisruptor.from_exit body_exit)
      match s1.process_block continuing other_functions branch_disruptor with
      | .error e => .error e
      | .ok (s2, continuing_uniformity, continuing_exit) =>
        .ok (s2, body_uniformity.bitor continuing_uniformity,
          body_exit.union continuing_exit)
  | .Return value =>
    let (s1, uniformity) :=
      match value with
      | some expr => self.add_ref expr
      | none => (self, Uniformity.default)
    .ok (s1, uniformity, ExitFlags.MAY_RETURN)
  | .Store pointer value =>
    let (s1, u1) := self.add_ref_impl pointer GlobalUse.WRITE
    let (s2, u2) := s1.add_ref value
    .ok (s2, u1.bitor u2, ExitFlags.empty)
  | .ImageStore image coordinate array_index value =>
    let (s1, array_uniformity) :=
      match array_index with
      | some expr => self.add_ref expr
      | none => (self, Uniformity.default)
    let (s2, u_image) := s1.add_ref_impl image GlobalUse.WRITE
    let (s3, u_coordinate) := s2.add_ref coordinate
    let (s4, u_value) := s3.add_ref value
    .ok (s4, ((array_uniformity.bitor u_image).bitor u_coordinate).bitor u_value,
      ExitFlags.empty)
  | .Call function arguments result =>
    let info := other_functions.getD function FunctionInfo.dummy
    let (s1, u0) := self.process_call info
    let (s2, u1) := arguments.foldl
      (fun (p : FunctionInfo × Uniformity) argument =>
        let (s, u) := p.1.add_ref argument
        (s, p.2.bitor u))
      (s1, u0)
    let (s3, u2) :=
      match result with
      | some expr =>
        let (s, u) := s2.add_ref expr
        (s, u1.bitor u)
      | none => (s2, u1)
    let exit := if info.may_kill then ExitFlags.MAY_KILL else ExitFlags.empty
    .ok (s3, u2, exit)

/-- The `for case in cases.iter()` loop inside the `Switch` arm of
`FunctionInfo::process_block`, with the running uniformity, exit and
case disruptor as accumulators. -/
def FunctionInfo.process_cases (self : FunctionInfo)
    (cases : List (Int × List Statement × Bool)) (other_functions : List FunctionInfo)
    (branch_disruptor case_disruptor : Option UniformityDisruptor)
    (uniformity : Uniformity) (exit : ExitFlags) :
    Except AnalysisError (FunctionInfo × Uniformity × ExitFlags) :=
  match cases with
  | [] => .ok (self, uniformity, exit)
  | (_, body, fall_through) :: rest =>
    match self.process_block body other_functions case_disruptor with
    | .error e => .error e
    | .ok (s1, case_uniformity, case_exit) =>
      let uniformity1 := uniformity.bitor case_uniformity
      let exit1 := exit.union case_exit
      let case_disruptor1 :=
        if fall_through then case_disruptor.or (UniformityDisruptor.from_exit case_exit)
        else branch_disruptor
      s1.process_cases rest other_functions branch_disruptor case_disruptor1
        uniformity1 exit1

/-- `FunctionInfo::process_block`: walk the statements left to right,
accumulating block uniformity and exit flags and enriching the disruptor
with the exits of preceding statements; fail with `NonUniformControlFlow`
when a statement requires uniformity under an active disruptor. -/
def FunctionInfo.process_block (self : FunctionInfo) (statements : List Statement)
    (other_functions : List FunctionInfo) (disruptor : Option UniformityDisruptor) :
    Except AnalysisError (FunctionInfo × Uniformity × ExitFlags) :=
  match statements with
  | [] => .ok (self, Uniformity.default, ExitFlags.empty)
  | stmt :: rest =>
    match self.process_statement stmt other_functions disruptor with
    | .error e => .error e
    | .ok (s1, cur_uniformity, cur_exit) =>
      match cur_uniformity.require_uniform, disruptor with
      | some expr, some cause => .error (.NonUniformControlFlow expr cause)
      | _, _ =>
        match s1.process_block rest other_functions
            (disruptor.or (UniformityDisruptor.from_exit cur_exit)) with
        | .error e => .error e
        | .ok (s2, rest_uniformity, rest_exit) =>
          .ok (s2, cur_uniformity.bitor rest_uniformity, cur_exit.union rest_exit)

end

/-! ## Function analyzer and module driver -/

/-- The `for (handle, _) in fun.expressions.iter()` loop of
`Analysis::process_function`, over an explicit list of handles. -/
def FunctionInfo.process_expression_list (self : FunctionInfo) (handles : List Nat)
    (expression_arena : List Expression) (global_var_arena : List GlobalVariable)
    (other_functions : List FunctionInfo) :
    Option (Except AnalysisError FunctionInfo) :=
  match handles with
  | [] => some (.ok self)
  | h :: rest =>
    match self.process_expression h expression_arena global_var_arena other_functions with
    | none => none
    | some (.error e) => some (.error e)
    | some (.ok s1) =>
      s1.process_expression_list rest expression_arena global_var_arena other_functions

/-- The zero-initialized `FunctionInfo` allocated by `Analysis::process_function`. -/
def initialFunctionInfo (fun' : Function) (global_var_arena : List GlobalVariable) :
    FunctionInfo :=
  { uniformity := Uniformity.default
    may_kill := false
    sampling_set := []
    global_uses := List.replicate global_var_arena.length GlobalUse.empty
    expressions := List.replicate fun'.expressions.length ExpressionInfo.default }

/-- `Analysis::process_function`. -/
def processFunction (other_functions : List FunctionInfo) (fun' : Function)
    (global_var_arena : List GlobalVariable) :
    Option (Except AnalysisError FunctionInfo) :=
  let info := initialFunctionInfo fun' global_var_arena
  match info.process_expression_list (List.range fun'.expressions.length)
      fun'.expressions global_var_arena other_functions with
  | none => none
  | some (.error e) => some (.error e)
  | some (.ok s1) =>
    match s1.process_block fun'.body other_functions none with
    | .error e => some (.error e)
    | .ok (s2, uniformity, exit) =>
      some (.ok { s2 with
        uniformity := uniformity
        may_kill := exit.contains ExitFlags.MAY_KILL })

structure Analysis where
  functions : List FunctionInfo
  entry_points : List FunctionInfo
deriving DecidableEq, Repr

/-- The `for (_, fun) in module.functions.iter()` loop of `Analysis::new`:
each ordinary function is processed against the already-accumulated infos
and appended. -/
def processFunctions (acc : List FunctionInfo) (funs : List Function)
    (global_var_arena : List GlobalVariable) :
    Option (Except AnalysisError (List FunctionInfo)) :=
  match funs with
  | [] => some (.ok acc)
  | f :: rest =>
    match processFunction acc f global_var_arena with
    | none => none
    | some (.error e) => some (.error e)
    | some (.ok info) => processFunctions (acc ++ [info]) rest global_var_arena

/-- The `for ep in module.entry_points.iter()` loop of `Analysis::new`:
entry points are processed against the full list of ordinary function infos. -/
def processEntryPoints (functions : List FunctionInfo) (acc : List FunctionInfo)
    (eps : List Function) (global_var_arena : List GlobalVariable) :
    Option (Except AnalysisError (List FunctionInfo)) :=
  match eps with
  | [] => some (.ok acc)
  | ep :: rest =>
    match processFunction functions ep global_var_arena with
    | none => none
    | some (.error e) => some (.error e)
    | some (.ok info) => processEntryPoints functions (acc ++ [info]) rest global_var_arena

/-- `Analysis::new`: analyze a module, ordinary functions first, then entry
points.  The outer `Option` is `none` exactly when the source would panic. -/
def Analysis.new (module : Module) : Option (Except AnalysisError Analysis) :=
  match processFunctions [] module.functions module.global_variables with
  | none => none
  | some (.error e) => some (.error e)
  | some (.ok functions) =>
    match processEntryPoints functions [] module.entry_points module.global_variables with
    | none => none
    | some (.error e) => some (.error e)
    | some (.ok entry_points) =>
      some (.ok { functions := functions, entry_points := entry_points })

/-- `Analysis::get_entry_point`. -/
def Analysis.get_entry_point (self : Analysis) (index : Nat) : FunctionInfo :=
  self.entry_points.getD index FunctionInfo.dummy

/-! ## Situation collector

Modelled from the spec: "If at any point the analyzer encounters an
expression whose `require_uniform` is Some(w) while the current
statement-context disruptor is Some(d), analysis fails with
NonUniformControlFlow(w, d).  If analysis succeeds, no such situation
exists."  The functions below re-run the block analysis, recording every
such situation `(w, d)` in encounter order instead of failing, so that
"no such situation was encountered" can be stated as an empty list. -/

/-- One recorded require-uniform-under-disruptor situation. -/
def checkViol (u : Uniformity) (disruptor : Option UniformityDisruptor) :
    List (Nat × UniformityDisruptor) :=
  match u.require_uniform, disruptor with
  | some expr, some cause => [(expr, cause)]
  | _, _ => []

mutual

/-- Total variant of `process_statement` that records situations instead of
failing. -/
def FunctionInfo.statement_viol (self : FunctionInfo) (stmt : Statement)
    (other_functions : List FunctionInfo) (disruptor : Option UniformityDisruptor) :
    FunctionInfo × Uniformity × ExitFlags × List (Nat × UniformityDisruptor) :=
  match stmt with
  | .Emit | .Break | .Continue => (self, Uniformity.default, ExitFlags.empty, [])
  | .Kill => (self, Uniformity.default, ExitFlags.MAY_KILL, [])
  | .Block b => self.block_viol b other_functions disruptor
  | .If condition accept reject =>
    let (s1, condition_uniformity) := self.add_ref condition
    let inner := checkViol condition_uniformity disruptor
    let branch_disruptor := disruptor.or condition_uniformity.disruptor
    let (s2, accept_uniformity, accept_exit, accept_viols) :=
      s1.block_viol accept other_functions branch_disruptor
    let (s3, reject_uniformity, reject_exit, reject_viols) :=
      s2.block_viol reject other_functions branch_disruptor
    (s3, (condition_uniformity.bitor accept_uniformity).bitor reject_uniformity,
      accept_exit.union reject_exit, inner ++ accept_viols ++ reject_viols)
  | .Switch selector cases default =>
    let (s1, uniformity) := self.add_ref selector
    let branch_disruptor := disruptor.or uniformity.disruptor
    let (s2, u2, e2, case_viols) :=
      s1.cases_viol cases other_functions branch_disruptor disruptor
        uniformity ExitFlags.empty
    let (s3, default_uniformity, default_exit, default_viols) :=
      s2.block_viol default other_functions branch_disruptor
    (s3, u2.bitor default_uniformity, e2.union default_exit, case_viols ++ default_viols)
  | .Loop body continuing =>
    let (s1, body_uniformity, body_exit, body_viols) :=
      self.block_viol body other_functions disruptor
    let branch_disruptor := disruptor.or (UniformityDisruptor.from_exit body_exit)
    let (s2, continuing_uniformity, continuing_exit, continuing_viols) :=
      s1.block_viol continuing other_functions branch_disruptor
    (s2, body_uniformity.bitor continuing_uniformity, body_exit.union continuing_exit,
      body_viols ++ continuing_viols)
  | .Return value =>
    let (s1, uniformity) :=
      match value with
      | some expr => self.add_ref expr
      | none => (self, Uniformity.default)
    (s1, uniformity, ExitFlags.MAY_RETURN, [])
  | .Store pointer value =>
    let (s1, u1) := self.add_ref_impl pointer GlobalUse.WRITE
    let (s2, u2) := s1.add_ref value
    (s2, u1.bitor u2, ExitFlags.empty, [])
  | .ImageStore image coordinate array_index value =>
    let (s1, array_uniformity) :=
      match array_index with
      | some expr => self.add_ref expr
      | none => (self, Uniformity.default)
    let (s2, u_image) := s1.add_ref_impl image GlobalUse.WRITE
    let (s3, u_coordinate) := s2.add_ref coordinate
    let (s4, u_value) := s3.add_ref value
    (s4, ((array_uniformity.bitor u_image).bitor u_coordinate).bitor u_value,
      ExitFlags.empty, [])
  | .Call function arguments result =>
    let info := other_functions.getD function FunctionInfo.dummy
    let (s1, u0) := self.process_call info
    let (s2, u1) := arguments.foldl
      (fun (p : FunctionInfo × Uniformity) argument =>
        let (s, u) := p.1.add_ref argument
        (s, p.2.bitor u))
      (s1, u0)
    let (s3, u2) :=
      match result with
      | some expr =>
        let (s, u) := s2.add_ref expr
        (s, u1.bitor u)
      | none => (s2, u1)
    let exit := if info.may_kill then ExitFlags.MAY_KILL else ExitFlags.empty
    (s3, u2, exit, [])

/-- Total variant of `process_cases`. -/
def FunctionInfo.cases_viol (self : FunctionInfo)
    (cases : List (Int × List Statement × Bool)) (other_functions : List FunctionInfo)
    (branch_disruptor case_disruptor : Option UniformityDisruptor)
    (uniformity : Uniformity) (exit : ExitFlags) :
    FunctionInfo × Uniformity × ExitFlags × List (Nat × UniformityDisruptor) :=
  match cases with
  | [] => (self, uniformity, exit, [])
  | (_, body, fall_through) :: rest =>
    let (s1, case_uniformity, case_exit, case_viols) :=
      self.block_viol body other_functions case_disruptor
    let uniformity1 := uniformity.bitor case_uniformity
    let exit1 := exit.union case_exit
    let case_disruptor1 :=
      if fall_through then case_disruptor.or (UniformityDisruptor.from_exit case_exit)
      else branch_disruptor
    let (s2, u2, e2, rest_viols) :=
      s1.cases_viol rest other_functions branch_disruptor case_disruptor1
        uniformity1 exit1
    (s2, u2, e2, case_viols ++ rest_viols)

/-- Total variant of `process_block` that records every
require-uniform-under-disruptor situation in encounter order. -/
def FunctionInfo.block_viol (self : FunctionInfo) (statements : List Statement)
    (other_functions : List FunctionInfo) (disruptor : Option UniformityDisruptor) :
    FunctionInfo × Uniformity × ExitFlags × List (Nat × UniformityDisruptor) :=
  match statements with
  | [] => (self, Uniformity.default, ExitFlags.empty, [])
  | stmt :: rest =>
    let (s1, cur_uniformity, cur_exit, cur_viols) :=
      self.statement_viol stmt other_functions disruptor
    let check := checkViol cur_uniformity disruptor
    let (s2, rest_uniformity, rest_exit, rest_viols) :=
      s1.block_viol rest other_functions
        (disruptor.or (UniformityDisruptor.from_exit cur_exit))
    (s2, cur_uniformity.bitor rest_uniformity, cur_exit.union rest_exit,
      cur_viols ++ check ++ rest_viols)

end

end Naga
namespace Naga

/-- Relates a fail-fast analysis result to a collector run: if the collector
recorded no situation the result is `ok` with the collector's outputs, else
the result is the error built from the first recorded situation. -/
def SimRel (r : Except AnalysisError (FunctionInfo × Uniformity × ExitFlags))
    (t : FunctionInfo × Uniformity × ExitFlags × List (Nat × UniformityDisruptor)) : Prop :=
  match t with
  | (s, u, e, []) => r = .ok (s, u, e)
  | (_, _, _, (w, d) :: _) => r = .error (.NonUniformControlFlow w d)

def StmtSim (self : FunctionInfo) (stmt : Statement) (fns : List FunctionInfo)
    (dis : Option UniformityDisruptor) : Prop :=
  SimRel (self.process_statement stmt fns dis) (self.statement_viol stmt fns dis)

def CasesSim (self : FunctionInfo) (cases : List (Int × List Statement × Bool))
    (fns : List FunctionInfo) (bd cd : Option UniformityDisruptor)
    (u : Uniformity) (e : ExitFlags) : Prop :=
  SimRel (self.process_cases cases fns bd cd u e) (self.cases_viol cases fns bd cd u e)

def BlockSim (self : FunctionInfo) (stmts : List Statement) (fns : List FunctionInfo)
    (dis : Option UniformityDisruptor) : Prop :=
  SimRel (self.process_block stmts fns dis) (self.block_viol stmts fns dis)

theorem SimRel.ok_unique {p t s u e} (hsim : SimRel p t)
    (hp : p = Except.ok (s, u, e)) : t = (s, u, e, []) := by
  rcases t with ⟨s', u', e', vs⟩
  cases vs with
  | nil =>
    simp only [SimRel] at hsim
    rw [hp] at hsim
    simp only [Except.ok.injEq, Prod.mk.injEq] at hsim
    obtain ⟨h1, h2, h3⟩ := hsim
    simp [h1, h2, h3]
  | cons head vs =>
    rcases head with ⟨w, d⟩
    simp only [SimRel] at hsim
    rw [hp] at hsim
    simp at hsim

theorem SimRel.error_head {p t w d vs} (hsim : SimRel p t)
    (hv : t.2.2.2 = (w, d) :: vs) : p = .error (.NonUniformControlFlow w d) := by
  rcases t with ⟨s', u', e', vs'⟩
  simp only at hv
  subst hv
  simpa only [SimRel] using hsim

theorem checkViol_nil (u : Uniformity) (dis : Option UniformityDisruptor)
    (h : ∀ w d, u.require_uniform = some w → dis = some d → False) :
    checkViol u dis = [] := by
  cases hu : u.require_uniform with
  | none => cases dis <;> simp [checkViol, hu]
  | some w =>
    cases hd : dis with
    | none => simp [checkViol, hu, hd]
    | some d => exact (h w d hu hd).elim

theorem block_sim (self : FunctionInfo) (stmts : List Statement)
    (fns : List FunctionInfo) (dis : Option UniformityDisruptor) :
    BlockSim self stmts fns dis := by
  refine FunctionInfo.process_block.induct StmtSim CasesSim BlockSim
    ?pEmit ?pBreak ?pContinue ?pKill ?pBlock ?pIfFire ?pIfAccErr ?pIfRejErr ?pIfOk
    ?pSwCasesErr ?pSwDefErr ?pSwOk ?pLoopBodyErr ?pLoopContErr ?pLoopOk
    ?pReturn ?pStore ?pImageStore ?pCall
    ?pNil ?pConsErr ?pConsFire ?pConsRestErr ?pConsOk
    ?pCasesNil ?pCasesErr ?pCasesOk
    self stmts fns dis
  case pEmit =>
    intro self fns dis
    simp [StmtSim, FunctionInfo.process_statement, FunctionInfo.statement_viol, SimRel]
  case pBreak =>
    intro self fns dis
    simp [StmtSim, FunctionInfo.process_statement, FunctionInfo.statement_viol, SimRel]
  case pContinue =>
    intro self fns dis
    simp [StmtSim, FunctionInfo.process_statement, FunctionInfo.statement_viol, SimRel]
  case pKill =>
    intro self fns dis
    simp [StmtSim, FunctionInfo.process_statement, FunctionInfo.statement_viol, SimRel]
  case pBlock =>
    intro self fns dis b ih
    simpa [StmtSim, BlockSim, FunctionInfo.process_statement,
      FunctionInfo.statement_viol] using ih
  case pIfFire =>
    intro self fns condition accept reject s2 u2 hadd expr cause hreq
    unfold StmtSim
    simp only [FunctionInfo.process_statement, FunctionInfo.statement_viol]
    rw [hadd]
    simp only [hreq, checkViol]
    simp [SimRel]
  case pIfAccErr =>
    intro self fns dis condition accept reject s2 u2 hadd bd e herr hno ihA
    have hbd : bd = dis.or u2.disruptor := rfl
    rw [hbd] at herr ihA
    unfold StmtSim
    simp only [FunctionInfo.process_statement, FunctionInfo.statement_viol]
    rw [hadd, checkViol_nil u2 dis hno]
    unfold BlockSim at ihA
    rcases hA : s2.block_viol accept fns (dis.or u2.disruptor) with ⟨sa, ua, ea, va⟩
    rw [hA] at ihA
    cases va with
    | nil =>
      simp only [SimRel] at ihA
      rw [herr] at ihA
      simp at ihA
    | cons head va =>
      rcases head with ⟨w, d⟩
      simp only [SimRel] at ihA
      simp [SimRel, ihA]
  case pIfRejErr =>
    intro self fns dis condition accept reject s2 u2 hadd bd s3 au ae hacc e herr hno ihA ihR
    have hbd : bd = dis.or u2.disruptor := rfl
    rw [hbd] at hacc herr ihA ihR
    unfold StmtSim
    simp only [FunctionInfo.process_statement, FunctionInfo.statement_viol]
    rw [hadd, checkViol_nil u2 dis hno]
    unfold BlockSim at ihA ihR
    rw [ihA.ok_unique hacc]
    rcases hB : s3.block_viol reject fns (dis.or u2.disruptor) with ⟨sb, ub, eb, vb⟩
    rw [hB] at ihR
    cases vb with
    | nil =>
      simp only [SimRel] at ihR
      rw [herr] at ihR
      simp at ihR
    | cons head vb =>
      rcases head with ⟨w, d⟩
      simp only [SimRel] at ihR
      simp [SimRel, hacc, ihR]
  case pIfOk =>
    intro self fns dis condition accept reject s2 u2 hadd bd s3 au ae hacc s4 ru re hrej hno ihA ihR
    have hbd : bd = dis.or u2.disruptor := rfl
    rw [hbd] at hacc hrej ihA ihR
    unfold StmtSim
    simp only [FunctionInfo.process_statement, FunctionInfo.statement_viol]
    rw [hadd, checkViol_nil u2 dis hno]
    unfold BlockSim at ihA ihR
    rw [ihA.ok_unique hacc, ihR.ok_unique hrej]
    simp [SimRel, hacc, hrej]
  case pSwCasesErr =>
    intro self fns dis selector cases default s2 u2 hadd bd e herr ihC
    have hbd : bd = dis.or u2.disruptor := rfl
    rw [hbd] at herr ihC
    unfold StmtSim
    simp only [FunctionInfo.process_statement, FunctionInfo.statement_viol]
    rw [hadd]
    unfold CasesSim at ihC
    rcases hC : s2.cases_viol cases fns (dis.or u2.disruptor) dis u2 ExitFlags.empty with
      ⟨sc, uc, ec, vc⟩
    rw [hC] at ihC
    cases vc with
    | nil =>
      simp only [SimRel] at ihC
      rw [herr] at ihC
      simp at ihC
    | cons head vc =>
      rcases head with ⟨w, d⟩
      simp only [SimRel] at ihC
      simp [SimRel, hC, ihC]
  case pSwDefErr =>
    intro self fns dis selector cases default s2 u2 hadd bd s3 cu ce hcases e herr ihC ihD
    have hbd : bd = dis.or u2.disruptor := rfl
    rw [hbd] at hcases herr ihC ihD
    unfold StmtSim
    simp only [FunctionInfo.process_statement, FunctionInfo.statement_viol]
    rw [hadd]
    unfold CasesSim at ihC
    unfold BlockSim at ihD
    rw [ihC.ok_unique hcases]
    rcases hD : s3.block_viol default fns (dis.or u2.disruptor) with ⟨sd, ud, ed, vd⟩
    rw [hD] at ihD
    cases vd with
    | nil =>
      simp only [SimRel] at ihD
      rw [herr] at ihD
      simp at ihD
    | cons head vd =>
      rcases head with ⟨w, d⟩
      simp only [SimRel] at ihD
      simp [SimRel, hcases, hD, ihD]
  case pSwOk =>
    intro self fns dis selector cases default s2 u2 hadd bd s3 cu ce hcases s4 du de hdef ihC ihD
    have hbd : bd = dis.or u2.disruptor := rfl
    rw [hbd] at hcases hdef ihC ihD
    unfold StmtSim
    simp only [FunctionInfo.process_statement, FunctionInfo.statement_viol]
    rw [hadd]
    unfold CasesSim at ihC
    unfold BlockSim at ihD
    rw [ihC.ok_unique hcases, ihD.ok_unique hdef]
    simp [SimRel, hcases, hdef]
  case pLoopBodyErr =>
    intro self fns dis body continuing e herr ihB
    unfold StmtSim
    simp only [FunctionInfo.process_statement, FunctionInfo.statement_viol]
    unfold BlockSim at ihB
    rcases hB : self.block_viol body fns dis with ⟨sb, ub, eb, vb⟩
    rw [hB] at ihB
    cases vb with
    | nil =>
      simp only [SimRel] at ihB
      rw [herr] at ihB
      simp at ihB
    | cons head vb =>
      rcases head with ⟨w, d⟩
      simp only [SimRel] at ihB
      simp [SimRel, hB, ihB]
  case pLoopContErr =>
    intro self fns dis body continuing s3 bu be hbody bd e herr ihB ihC
    have hbd : bd = dis.or (UniformityDisruptor.from_exit be) := rfl
    rw [hbd] at herr ihC
    unfold StmtSim
    simp only [FunctionInfo.process_statement, FunctionInfo.statement_viol]
    unfold BlockSim at ihB ihC
    rw [ihB.ok_unique hbody]
    rcases hC : s3.block_viol continuing fns (dis.or (UniformityDisruptor.from_exit be)) with
      ⟨sc, uc, ec, vc⟩
    rw [hC] at ihC
    cases vc with
    | nil =>
      simp only [SimRel] at ihC
      rw [herr] at ihC
      simp at ihC
    | cons head vc =>
      rcases head with ⟨w, d⟩
      simp only [SimRel] at ihC
      simp [SimRel, hbody, hC, ihC]
  case pLoopOk =>
    intro self fns dis body continuing s3 bu be hbody bd s4 cu ce hcont ihB ihC
    have hbd : bd = dis.or (UniformityDisruptor.from_exit be) := rfl
    rw [hbd] at hcont ihC
    unfold StmtSim
    simp only [FunctionInfo.process_statement, FunctionInfo.statement_viol]
    unfold BlockSim at ihB ihC
    rw [ihB.ok_unique hbody, ihC.ok_unique hcont]
    simp [SimRel, hbody, hcont]
  case pReturn =>
    intro self fns dis value s2 u2 hmatch
    unfold StmtSim
    simp only [FunctionInfo.process_statement, FunctionInfo.statement_viol]
    rw [hmatch]
    simp [SimRel]
  case pStore =>
    intro self fns dis pointer value s2 u2 h1 s3 u3 h2
    unfold StmtSim
    simp only [FunctionInfo.process_statement, FunctionInfo.statement_viol]
    rw [h1]
    simp only [h2]
    simp [SimRel]
  case pImageStore =>
    intro self fns dis image coordinate array_index value s2 u2 h1 s3 u3 h2 s4 u4 h3 s5 u5 h4
    unfold StmtSim
    simp only [FunctionInfo.process_statement, FunctionInfo.statement_viol]
    rw [h1]
    simp only [h2, h3, h4]
    simp [SimRel]
  case pCall =>
    intro self fns dis function arguments result info s2 u2 h1 s3 u3 h2 s4 u4 h3
    have hinfo : info = fns.getD function FunctionInfo.dummy := rfl
    rw [hinfo] at h1
    unfold StmtSim
    simp only [FunctionInfo.process_statement, FunctionInfo.statement_viol]
    rw [h1]
    simp only [h2, h3]
    simp [SimRel]
  case pNil =>
    intro self fns dis
    simp [BlockSim, FunctionInfo.process_block, FunctionInfo.block_viol, SimRel]
  case pConsErr =>
    intro self fns dis stmt rest e herr ih
    unfold BlockSim
    simp only [FunctionInfo.process_block, FunctionInfo.block_viol]
    unfold StmtSim at ih
    rcases hS : self.statement_viol stmt fns dis with ⟨s1, u1, e1, v1⟩
    rw [hS] at ih
    cases v1 with
    | nil =>
      simp only [SimRel] at ih
      rw [herr] at ih
      simp at ih
    | cons head v1 =>
      rcases head with ⟨w, d⟩
      simp only [SimRel] at ih
      simp [SimRel, hS, ih]
  case pConsFire =>
    intro self fns stmt rest s3 u3 e3 expr cause hreq hok ih
    unfold BlockSim
    simp only [FunctionInfo.process_block, FunctionInfo.block_viol]
    unfold StmtSim at ih
    rw [ih.ok_unique hok]
    simp [SimRel, hok, hreq, checkViol]
  case pConsRestErr =>
    intro self fns dis stmt rest s3 u3 e3 hok e herr hno ih ihR
    unfold BlockSim
    simp only [FunctionInfo.process_block, FunctionInfo.block_viol]
    unfold StmtSim at ih
    rw [ih.ok_unique hok, checkViol_nil u3 dis hno]
    unfold BlockSim at ihR
    rcases hR : s3.block_viol rest fns (dis.or (UniformityDisruptor.from_exit e3)) with
      ⟨sr, ur, er, vr⟩
    rw [hR] at ihR
    cases vr with
    | nil =>
      simp only [SimRel] at ihR
      rw [herr] at ihR
      simp at ihR
    | cons head vr =>
      rcases head with ⟨w, d⟩
      simp only [SimRel] at ihR
      simp [SimRel, hok, ihR]
  case pConsOk =>
    intro self fns dis stmt rest s3 u3 e3 hok s4 u4 e4 hrest hno ih ihR
    unfold BlockSim
    simp only [FunctionInfo.process_block, FunctionInfo.block_viol]
    unfold StmtSim at ih
    unfold BlockSim at ihR
    rw [ih.ok_unique hok, ihR.ok_unique hrest, checkViol_nil u3 dis hno]
    simp [SimRel, hok, hrest]
  case pCasesNil =>
    intro self fns bd cd u e
    simp [CasesSim, FunctionInfo.process_cases, FunctionInfo.cases_viol, SimRel]
  case pCasesErr =>
    intro self fns bd cd u e v body ft rest err herr ihB
    unfold CasesSim
    simp only [FunctionInfo.process_cases, FunctionInfo.cases_viol]
    unfold BlockSim at ihB
    rcases hB : self.block_viol body fns cd with ⟨sb, ub, eb, vb⟩
    rw [hB] at ihB
    cases vb with
    | nil =>
      simp only [SimRel] at ihB
      rw [herr] at ihB
      simp at ihB
    | cons head vb =>
      rcases head with ⟨w, d⟩
      simp only [SimRel] at ihB
      simp [SimRel, hB, ihB]
  case pCasesOk =>
    intro self fns bd cd u e v body ft rest s3 cu ce hbody u1 e1 cd1 ihB ihC
    have hu1 : u1 = u.bitor cu := rfl
    have he1 : e1 = e.union ce := rfl
    have hcd1 : cd1 = if ft then cd.or (UniformityDisruptor.from_exit ce) else bd := rfl
    rw [hu1, he1, hcd1] at ihC
    unfold CasesSim
    simp only [FunctionInfo.process_cases, FunctionInfo.cases_viol]
    unfold BlockSim at ihB
    rw [ihB.ok_unique hbody]
    unfold CasesSim at ihC
    rcases hC : s3.cases_viol rest fns bd
        (if ft then cd.or (UniformityDisruptor.from_exit ce) else bd)
        (u.bitor cu) (e.union ce) with ⟨sc, uc, ec, vc⟩
    rw [hC] at ihC
    cases vc with
    | nil =>
      simp only [SimRel] at ihC
      simp [SimRel, hbody, hC, ihC]
    | cons head vc =>
      rcases head with ⟨w, d⟩
      simp only [SimRel] at ihC
      simp [SimRel, hbody, hC, ihC]

end Naga
namespace Naga

/-- Corollary of the simulation: a fail-fast block run succeeds iff the
collector records no situation, and then outputs agree. -/
theorem process_block_ok_iff (self : FunctionInfo) (stmts : List Statement)
    (fns : List FunctionInfo) (dis : Option UniformityDisruptor)
    (s : FunctionInfo) (u : Uniformity) (e : ExitFlags) :
    self.process_block stmts fns dis = .ok (s, u, e) ↔
      self.block_viol stmts fns dis = (s, u, e, []) := by
  constructor
  · intro h
    exact (block_sim self stmts fns dis).ok_unique h
  · intro h
    have hs := block_sim self stmts fns dis
    rw [BlockSim, h] at hs
    simpa only [SimRel] using hs

/-- Successful prefix runs of the function loop compose. -/
theorem processFunctions_append_ok :
    ∀ (pre : List Function) (acc0 acc : List FunctionInfo)
      (gv : List GlobalVariable) (rest : List Function),
      processFunctions acc0 pre gv = some (.ok acc) →
      processFunctions acc0 (pre ++ rest) gv = processFunctions acc rest gv := by
  intro pre
  induction pre with
  | nil =>
    intro acc0 acc gv rest h
    simp only [processFunctions, Option.some.injEq, Except.ok.injEq] at h
    subst h
    simp
  | cons f pre ih =>
    intro acc0 acc gv rest h
    simp only [processFunctions] at h ⊢
    rcases hf : processFunction acc0 f gv with _ | e | info
    · rw [hf] at h
      simp at h
    · rw [hf] at h
      simp at h
    · rw [hf] at h
      exact ih (acc0 ++ [info]) acc gv rest h

/-- Successful prefix runs of the entry-point loop compose. -/
theorem processEntryPoints_append_ok :
    ∀ (pre : List Function) (funs acc0 acc : List FunctionInfo)
      (gv : List GlobalVariable) (rest : List Function),
      processEntryPoints funs acc0 pre gv = some (.ok acc) →
      processEntryPoints funs acc0 (pre ++ rest) gv = processEntryPoints funs acc rest gv := by
  intro pre
  induction pre with
  | nil =>
    intro funs acc0 acc gv rest h
    simp only [processEntryPoints, Option.some.injEq, Except.ok.injEq] at h
    subst h
    simp
  | cons ep pre ih =>
    intro funs acc0 acc gv rest h
    simp only [processEntryPoints] at h ⊢
    rcases hf : processFunction funs ep gv with _ | e | info
    · rw [hf] at h
      simp at h
    · rw [hf] at h
      simp at h
    · rw [hf] at h
      exact ih funs (acc0 ++ [info]) acc gv rest h

/-- A successful `processFunction` runs the fail-fast block analysis to `ok`
from the state produced by the expression pass. -/
theorem processFunction_ok_block {fns : List FunctionInfo} {f : Function}
    {gv : List GlobalVariable} {info s : FunctionInfo}
    (h : processFunction fns f gv = some (.ok info))
    (hs : (initialFunctionInfo f gv).process_expression_list
        (List.range f.expressions.length) f.expressions gv fns = some (.ok s)) :
    ∃ out, s.process_block f.body fns none = .ok out := by
  simp only [processFunction] at h
  rw [hs] at h
  rcases hb : s.process_block f.body fns none with e | out
  · simp [hb] at h
  · exact ⟨out, rfl⟩

end Naga
namespace Naga

/-- Splits a successful `Analysis.new` into its two loop results. -/
theorem Analysis.new_ok_parts {m : Module} {a : Analysis}
    (h : Analysis.new m = some (.ok a)) :
    processFunctions [] m.functions m.global_variables = some (.ok a.functions) ∧
      processEntryPoints a.functions [] m.entry_points m.global_variables =
        some (.ok a.entry_points) := by
  simp only [Analysis.new] at h
  rcases h1 : processFunctions [] m.functions m.global_variables with _ | e | funs
  · rw [h1] at h; simp at h
  · rw [h1] at h; simp at h
  · rw [h1] at h
    have h' : (match processEntryPoints funs [] m.entry_points m.global_variables with
        | none => none
        | some (Except.error err) => some (Except.error err)
        | some (Except.ok eps) => some (Except.ok (⟨funs, eps⟩ : Analysis))) =
        some (Except.ok a) := h
    rcases h2 : processEntryPoints funs [] m.entry_points m.global_variables with _ | e | eps
    · rw [h2] at h'; simp at h'
    · rw [h2] at h'; simp at h'
    · rw [h2] at h'
      simp only [Option.some.injEq, Except.ok.injEq] at h'
      subst h'
      exact ⟨rfl, h2⟩

/-- C1: whenever the block analysis encounters a statement whose uniformity
has `require_uniform = some w` under a live disruptor `some d` (the head of
the collector's record), the fail-fast run errors with exactly
`NonUniformControlFlow w d`; a record-free run succeeds with the same
outputs; such errors propagate out of `Analysis.new` (for ordinary functions
and entry points alike), so no partial `Analysis` is produced; and when
`Analysis.new` succeeds, no function's block analysis recorded any
situation. -/
theorem C1_nonuniform_error_propagation (module : Module) :
    (∀ (self : FunctionInfo) (stmts : List Statement) (fns : List FunctionInfo)
        (dis : Option UniformityDisruptor) (w : Nat) (d : UniformityDisruptor)
        (vs : List (Nat × UniformityDisruptor)),
        (self.block_viol stmts fns dis).2.2.2 = (w, d) :: vs →
        self.process_block stmts fns dis = .error (.NonUniformControlFlow w d)) ∧
    (∀ (self : FunctionInfo) (stmts : List Statement) (fns : List FunctionInfo)
        (dis : Option UniformityDisruptor) (s : FunctionInfo) (u : Uniformity)
        (e : ExitFlags),
        self.block_viol stmts fns dis = (s, u, e, []) →
        self.process_block stmts fns dis = .ok (s, u, e)) ∧
    (∀ (pre : List Function) (f : Function) (rest : List Function)
        (acc : List FunctionInfo) (e : AnalysisError),
        module.functions = pre ++ f :: rest →
        processFunctions [] pre module.global_variables = some (.ok acc) →
        processFunction acc f module.global_variables = some (.error e) →
        Analysis.new module = some (.error e)) ∧
    (∀ (funs : List FunctionInfo) (pre : List Function) (ep : Function)
        (rest : List Function) (acc : List FunctionInfo) (e : AnalysisError),
        processFunctions [] module.functions module.global_variables = some (.ok funs) →
        module.entry_points = pre ++ ep :: rest →
        processEntryPoints funs [] pre module.global_variables = some (.ok acc) →
        processFunction funs ep module.global_variables = some (.error e) →
        Analysis.new module = some (.error e)) ∧
    (∀ (a : Analysis), Analysis.new module = some (.ok a) →
      (∀ (pre : List Function) (f : Function) (rest : List Function)
          (acc : List FunctionInfo) (s : FunctionInfo),
          module.functions = pre ++ f :: rest →
          processFunctions [] pre module.global_variables = some (.ok acc) →
          (initialFunctionInfo f module.global_variables).process_expression_list
              (List.range f.expressions.length) f.expressions module.global_variables acc =
            some (.ok s) →
          (s.block_viol f.body acc none).2.2.2 = []) ∧
      (∀ (pre : List Function) (ep : Function) (rest : List Function)
          (acc : List FunctionInfo) (s : FunctionInfo),
          module.entry_points = pre ++ ep :: rest →
          processEntryPoints a.functions [] pre module.global_variables = some (.ok acc) →
          (initialFunctionInfo ep module.global_variables).process_expression_list
              (List.range ep.expressions.length) ep.expressions module.global_variables
              a.functions =
            some (.ok s) →
          (s.block_viol ep.body a.functions none).2.2.2 = [])) := by
  refine ⟨?_, ?_, ?_, ?_, ?_⟩
  · intro self stmts fns dis w d vs hv
    exact (block_sim self stmts fns dis).error_head hv
  · intro self stmts fns dis s u e hv
    exact (process_block_ok_iff self stmts fns dis s u e).mpr hv
  · intro pre f rest acc e hsplit hpre herr
    simp only [Analysis.new]
    rw [hsplit, processFunctions_append_ok pre [] acc module.global_variables (f :: rest) hpre]
    simp only [processFunctions]
    rw [herr]
  · intro funs pre ep rest acc e hfuns hsplit hpre herr
    simp only [Analysis.new]
    rw [hfuns]
    show (match processEntryPoints funs [] module.entry_points module.global_variables with
        | none => none
        | some (Except.error err) => some (Except.error err)
        | some (Except.ok eps) => some (Except.ok (⟨funs, eps⟩ : Analysis))) =
        some (Except.error e)
    rw [hsplit,
      processEntryPoints_append_ok pre funs [] acc module.global_variables (ep :: rest) hpre]
    simp only [processEntryPoints]
    rw [herr]
  · intro a ha
    have hparts := Analysis.new_ok_parts ha
    constructor
    · intro pre f rest acc s hsplit hpre hs
      have hfuns := hparts.1
      rw [hsplit, processFunctions_append_ok pre [] acc module.global_variables (f :: rest) hpre]
        at hfuns
      simp only [processFunctions] at hfuns
      rcases hf : processFunction acc f module.global_variables with _ | e | info
      · rw [hf] at hfuns; simp at hfuns
      · rw [hf] at hfuns; simp at hfuns
      · obtain ⟨out, hb⟩ := processFunction_ok_block hf hs
        have hv := (process_block_ok_iff s f.body acc none out.1 out.2.1 out.2.2).mp hb
        simp [hv]
    · intro pre ep rest acc s hsplit hpre hs
      have heps := hparts.2
      rw [hsplit,
        processEntryPoints_append_ok pre a.functions [] acc module.global_variables
          (ep :: rest) hpre] at heps
      simp only [processEntryPoints] at heps
      rcases hf : processFunction a.functions ep module.global_variables with _ | e | info
      · rw [hf] at heps; simp at heps
      · rw [hf] at heps; simp at heps
      · obtain ⟨out, hb⟩ := processFunction_ok_block hf hs
        have hv := (process_block_ok_iff s ep.body a.functions none out.1 out.2.1 out.2.2).mp hb
        simp [hv]

end Naga
namespace Naga

/-- Witness for C1 at a concrete module: a derivative inside a branch on a
non-uniform condition makes `Analysis.new` fail with
`NonUniformControlFlow`. -/
theorem C1_witness :
    Analysis.new
        { global_variables := []
          functions := [{ expressions := [Expression.FunctionArgument 0, Expression.Derivative 0]
                          body := [Statement.If 0 [Statement.Store 0 1] []] }]
          entry_points := [] } =
      some (.error (.NonUniformControlFlow 1 (.Expression 0))) :=
  (C1_nonuniform_error_propagation _).2.2.1 []
    { expressions := [Expression.FunctionArgument 0, Expression.Derivative 0]
      body := [Statement.If 0 [Statement.Store 0 1] []] } [] []
    (.NonUniformControlFlow 1 (.Expression 0)) rfl rfl rfl

end Naga
namespace Naga

theorem getD_set_self {α : Type} (l : List α) (i : Nat) (a d : α) (h : i < l.length) :
    (l.set i a).getD i d = a := by
  rw [List.getD_eq_getElem?_getD]
  rw [List.getElem?_set_self]
  · rfl
  · exact h

/-- Modelled from the spec: the enumeration of globals whose value is uniform
(spec §4.2.1, claim C2): the three uniform built-ins; else, by storage class,
flat inputs, uniform/push-constant data, and handle/storage data without
STORE access. -/
def uniformGlobalSpec (var : GlobalVariable) : Prop :=
  (∃ b, var.binding = some (Binding.BuiltIn b) ∧
    (b = BuiltIn.FrontFacing ∨ b = BuiltIn.WorkGroupId ∨ b = BuiltIn.WorkGroupSize)) ∨
  ((∀ b, var.binding ≠ some (Binding.BuiltIn b)) ∧
    ((var.class' = StorageClass.Input ∧ var.interpolation = some Interpolation.Flat) ∨
      var.class' = StorageClass.Uniform ∨ var.class' = StorageClass.PushConstant ∨
      ((var.class' = StorageClass.Handle ∨ var.class' = StorageClass.Storage) ∧
        var.storage_access.store = false)))

/-- C2: a `GlobalVariable(g)` expression gets the default (uniform)
uniformity exactly when `g` is one of the uniform built-ins FrontFacing,
WorkGroupId, WorkGroupSize, or has no built-in binding and is a flat Input,
Uniform, PushConstant, or a Handle/Storage global without STORE access; in
every other case it gets `non_uniform_result` with its own handle as
witness. -/
theorem C2_global_variable_uniformity (self : FunctionInfo) (handle g : Nat)
    (expression_arena : List Expression) (global_var_arena : List GlobalVariable)
    (fns : List FunctionInfo)
    (harena : expression_arena.getD handle Expression.dummy = Expression.GlobalVariable g)
    (hlen : handle < self.expressions.length) :
    ∃ self', self.process_expression handle expression_arena global_var_arena fns =
        some (.ok self') ∧
      ((self'.expressions.getD handle ExpressionInfo.default).uniformity = Uniformity.default ↔
        uniformGlobalSpec (global_var_arena.getD g GlobalVariable.dummy)) ∧
      (¬ uniformGlobalSpec (global_var_arena.getD g GlobalVariable.dummy) →
        (self'.expressions.getD handle ExpressionInfo.default).uniformity =
          Uniformity.nonUniformResult handle) := by
  simp only [FunctionInfo.process_expression, harena]
  refine ⟨_, rfl, ?_⟩
  simp only [FunctionInfo.finishExpression]
  rw [getD_set_self _ _ _ _ hlen]
  generalize global_var_arena.getD g GlobalVariable.dummy = var
  rcases var with ⟨binding, cls, interp, ld, st⟩
  rcases binding with _ | (b | n)
  · rcases interp with _ | i
    · cases cls <;> cases st <;>
        simp [uniformGlobalSpec, Uniformity.default, Uniformity.nonUniformResult]
    · cases i <;> cases cls <;> cases st <;>
        simp [uniformGlobalSpec, Uniformity.default, Uniformity.nonUniformResult]
  · cases b <;>
      simp [uniformGlobalSpec, Uniformity.default, Uniformity.nonUniformResult]
  · rcases interp with _ | i
    · cases cls <;> cases st <;>
        simp [uniformGlobalSpec, Uniformity.default, Uniformity.nonUniformResult]
    · cases i <;> cases cls <;> cases st <;>
        simp [uniformGlobalSpec, Uniformity.default, Uniformity.nonUniformResult]

end Naga
namespace Naga

/-- Witness for C2 at a concrete input: a `Uniform`-class global without a
built-in binding is classified uniform. -/
theorem C2_witness :
    ∃ self',
      FunctionInfo.process_expression
          { uniformity := Uniformity.default, may_kill := false, sampling_set := []
            global_uses := [GlobalUse.empty], expressions := [ExpressionInfo.default] }
          0 [Expression.GlobalVariable 0]
          [{ binding := none, class' := StorageClass.Uniform, interpolation := none
             storage_access := { load := false, store := false } }] [] =
        some (.ok self') ∧
      ((self'.expressions.getD 0 ExpressionInfo.default).uniformity = Uniformity.default ↔
        uniformGlobalSpec
          (([{ binding := none, class' := StorageClass.Uniform, interpolation := none
               storage_access := { load := false, store := false } }] :
              List GlobalVariable).getD 0 GlobalVariable.dummy)) ∧
      (¬ uniformGlobalSpec
          (([{ binding := none, class' := StorageClass.Uniform, interpolation := none
               storage_access := { load := false, store := false } }] :
              List GlobalVariable).getD 0 GlobalVariable.dummy) →
        (self'.expressions.getD 0 ExpressionInfo.default).uniformity =
          Uniformity.nonUniformResult 0) :=
  C2_global_variable_uniformity _ 0 0 _ _ _ rfl (by decide)

end Naga
namespace Naga

theorem add_assignable_ref_some (self : FunctionInfo) (handle : Nat) :
    ∃ r, self.add_assignable_ref handle none = some r := by
  unfold FunctionInfo.add_assignable_ref
  dsimp only
  rcases h : (self.expressions.getD handle ExpressionInfo.default).assignable_global with _ | g <;>
    exact ⟨_, rfl⟩

/-- C10: the `unreachable` panic inside `add_assignable_ref` (modelled as the
outer `none` of `process_expression`) is never executed: every expression is
processed with a freshly initialized `none` carry, and `Access`/`AccessIndex`
call `add_assignable_ref` exactly once on it. -/
theorem C10_no_unreachable_panic (self : FunctionInfo) (handle : Nat)
    (expression_arena : List Expression) (global_var_arena : List GlobalVariable)
    (fns : List FunctionInfo) :
    self.process_expression handle expression_arena global_var_arena fns ≠ none := by
  cases harena : expression_arena.getD handle Expression.dummy
  case Access base index =>
    obtain ⟨⟨s1, ag, u1⟩, hr⟩ := add_assignable_ref_some self base
    simp only [FunctionInfo.process_expression, harena]
    simp [hr]
  case AccessIndex base index =>
    obtain ⟨⟨s1, ag, u1⟩, hr⟩ := add_assignable_ref_some self base
    simp only [FunctionInfo.process_expression, harena]
    simp [hr]
  case ImageSample image sampler coordinate array_index offset level depth_ref =>
    simp only [FunctionInfo.process_expression, harena]
    split
    · split
      · simp
      · simp
    · simp
  all_goals simp only [FunctionInfo.process_expression, harena]; simp

theorem dominates_aux : ∀ (xs ys : List GlobalUse),
    ((xs.zip ys).all fun p => p.1.contains p.2) = true ↔
      ∀ i < min xs.length ys.length,
        (xs.getD i GlobalUse.empty).contains (ys.getD i GlobalUse.empty) = true := by
  intro xs
  induction xs with
  | nil => intro ys; simp
  | cons x xs ih =>
    intro ys
    cases ys with
    | nil => simp
    | cons y ys =>
      simp only [List.zip_cons_cons, List.all_cons, Bool.and_eq_true, ih]
      constructor
      · rintro ⟨h1, h2⟩ i hi
        cases i with
        | zero => simpa using h1
        | succ j =>
          simp only [List.getD_cons_succ]
          exact h2 j (by simp only [List.length_cons] at hi; omega)
      · intro h
        refine ⟨by simpa using h 0 (by simp only [List.length_cons]; omega), fun j hj => ?_⟩
        have := h (j + 1) (by simp only [List.length_cons]; omega)
        simpa using this

/-- C9 counterexample: `dominates_global_use` zips the two masks, so with an
empty self mask against a nonempty other mask it returns true even though
index 0 of other's mask is not contained in self's. -/
theorem C9_counterexample :
    (FunctionInfo.dominates_global_use
        { uniformity := Uniformity.default, may_kill := false, sampling_set := []
          global_uses := [], expressions := [] }
        { uniformity := Uniformity.default, may_kill := false, sampling_set := []
          global_uses := [GlobalUse.WRITE], expressions := [] } = true) ∧
      0 < ([GlobalUse.WRITE] : List GlobalUse).length ∧
      (([] : List GlobalUse).getD 0 GlobalUse.empty).contains
          (([GlobalUse.WRITE] : List GlobalUse).getD 0 GlobalUse.empty) = false := by
  refine ⟨rfl, by decide, by decide⟩

/-- C9 (amended): `dominates_global_use self other` is true iff self's mask
elementwise contains other's at every index present in both masks (the zip
stops at the shorter mask; for equal-length masks this is every index of
other's mask). -/
theorem C9_dominates_global_use (self other : FunctionInfo) :
    self.dominates_global_use other = true ↔
      ∀ i < min self.global_uses.length other.global_uses.length,
        (self.global_uses.getD i GlobalUse.empty).contains
          (other.global_uses.getD i GlobalUse.empty) = true := by
  unfold FunctionInfo.dominates_global_use
  exact dominates_aux self.global_uses other.global_uses

end Naga
namespace Naga

theorem mem_insertKey_self (s : List SamplingKey) (k : SamplingKey) : k ∈ insertKey s k := by
  unfold insertKey
  split
  · assumption
  · simp

theorem add_ref_impl_sampling_set (self : FunctionInfo) (handle : Nat) (use : GlobalUse) :
    (self.add_ref_impl handle use).1.sampling_set = self.sampling_set := by
  unfold FunctionInfo.add_ref_impl
  dsimp only
  cases (self.expressions.getD handle ExpressionInfo.default).assignable_global <;> rfl

/-- C8: every `ImageSample` whose image and sampler operands are direct
`GlobalVariable` expressions succeeds and records the `SamplingKey` of the
two globals in the sampling set; a non-global image operand fails with
`ExpectedGlobalVariable` carrying that operand's expression, and (image
global) a non-global sampler operand fails carrying the sampler's
expression. -/
theorem C8_image_sample_sampling (self : FunctionInfo) (handle : Nat)
    (arena : List Expression) (gv : List GlobalVariable) (fns : List FunctionInfo)
    (image sampler coordinate : Nat) (array_index offset : Option Nat)
    (level : SampleLevel) (depth_ref : Option Nat)
    (harena : arena.getD handle Expression.dummy =
      Expression.ImageSample image sampler coordinate array_index offset level depth_ref) :
    (∀ gi gs, arena.getD image Expression.dummy = Expression.GlobalVariable gi →
      arena.getD sampler Expression.dummy = Expression.GlobalVariable gs →
      ∃ self', self.process_expression handle arena gv fns = some (.ok self') ∧
        ({ image := gi, sampler := gs } : SamplingKey) ∈ self'.sampling_set) ∧
    ((∀ g, arena.getD image Expression.dummy ≠ Expression.GlobalVariable g) →
      self.process_expression handle arena gv fns =
        some (.error (.ExpectedGlobalVariable (arena.getD image Expression.dummy)))) ∧
    (∀ gi, arena.getD image Expression.dummy = Expression.GlobalVariable gi →
      (∀ g, arena.getD sampler Expression.dummy ≠ Expression.GlobalVariable g) →
      self.process_expression handle arena gv fns =
        some (.error (.ExpectedGlobalVariable (arena.getD sampler Expression.dummy)))) := by
  refine ⟨?_, ?_, ?_⟩
  · intro gi gs hgi hgs
    simp only [FunctionInfo.process_expression, harena, hgi, hgs]
    refine ⟨_, rfl, ?_⟩
    rcases array_index with _ | ai <;> rcases depth_ref with _ | dr <;> cases level <;>
      simp [FunctionInfo.finishExpression, FunctionInfo.add_ref, add_ref_impl_sampling_set,
        mem_insertKey_self]
  · intro himg
    simp only [FunctionInfo.process_expression, harena]
  · intro gi hgi hsmp
    simp only [FunctionInfo.process_expression, harena, hgi]

end Naga
namespace Naga

/-- Witness for C8: an `ImageSample` of two direct global-variable operands
records their `SamplingKey`. -/
theorem C8_witness :
    ∃ self',
      FunctionInfo.process_expression
          { uniformity := Uniformity.default, may_kill := false, sampling_set := []
            global_uses := [GlobalUse.empty, GlobalUse.empty]
            expressions := [ExpressionInfo.default, ExpressionInfo.default,
              ExpressionInfo.default, ExpressionInfo.default] }
          3
          [Expression.GlobalVariable 0, Expression.GlobalVariable 1, Expression.Constant 0,
            Expression.ImageSample 0 1 2 none none SampleLevel.Zero none]
          [GlobalVariable.dummy, GlobalVariable.dummy] [] =
        some (.ok self') ∧
      ({ image := 0, sampler := 1 } : SamplingKey) ∈ self'.sampling_set :=
  (C8_image_sample_sampling
      { uniformity := Uniformity.default, may_kill := false, sampling_set := []
        global_uses := [GlobalUse.empty, GlobalUse.empty]
        expressions := [ExpressionInfo.default, ExpressionInfo.default,
          ExpressionInfo.default, ExpressionInfo.default] }
      3
      [Expression.GlobalVariable 0, Expression.GlobalVariable 1, Expression.Constant 0,
        Expression.ImageSample 0 1 2 none none SampleLevel.Zero none]
      [GlobalVariable.dummy, GlobalVariable.dummy] []
      0 1 2 none none SampleLevel.Zero none rfl).1 0 1 rfl rfl

end Naga
namespace Naga

/-- Modelled from the spec (claim C3): the switch rule as an explicit fold:
add a ref on the selector, derive the branch disruptor, walk the cases with
a running `case_disruptor` seeded with the parent disruptor, joining each
case's uniformity and exit and updating the running disruptor (`or` of its
exit when the case falls through, the branch disruptor otherwise), then
analyze the default block under the branch disruptor and join. -/
def switchSpec (self : FunctionInfo) (selector : Nat)
    (cases : List (Int × List Statement × Bool)) (default : List Statement)
    (fns : List FunctionInfo) (disruptor : Option UniformityDisruptor) :
    Except AnalysisError (FunctionInfo × Uniformity × ExitFlags) :=
  let (s0, u0) := self.add_ref selector
  let bd := disruptor.or u0.disruptor
  match cases.foldlM
      (fun (acc : FunctionInfo × Uniformity × ExitFlags × Option UniformityDisruptor)
          (c : Int × List Statement × Bool) =>
        match acc.1.process_block c.2.1 fns acc.2.2.2 with
        | Except.error e => Except.error e
        | Except.ok (s, cu, ce) =>
          Except.ok (s, acc.2.1.bitor cu, acc.2.2.1.union ce,
            if c.2.2 then acc.2.2.2.or (UniformityDisruptor.from_exit ce) else bd))
      (s0, u0, ExitFlags.empty, disruptor) with
  | .error e => .error e
  | .ok (s1, u1, e1, _) =>
    match s1.process_block default fns bd with
    | .error e => .error e
    | .ok (s2, du, de) => .ok (s2, u1.bitor du, e1.union de)

theorem process_cases_eq_foldlM (fns : List FunctionInfo)
    (bd : Option UniformityDisruptor) :
    ∀ (cases : List (Int × List Statement × Bool)) (self : FunctionInfo)
      (cd : Option UniformityDisruptor) (u : Uniformity) (e : ExitFlags),
      self.process_cases cases fns bd cd u e =
        (match cases.foldlM
            (fun (acc : FunctionInfo × Uniformity × ExitFlags × Option UniformityDisruptor)
                (c : Int × List Statement × Bool) =>
              match acc.1.process_block c.2.1 fns acc.2.2.2 with
              | Except.error e => Except.error e
              | Except.ok (s, cu, ce) =>
                Except.ok (s, acc.2.1.bitor cu, acc.2.2.1.union ce,
                  if c.2.2 then acc.2.2.2.or (UniformityDisruptor.from_exit ce) else bd))
            (self, u, e, cd) with
        | .error err => .error err
        | .ok (s, u', e', _) => .ok (s, u', e')) := by
  intro cases
  induction cases with
  | nil =>
    intro self cd u e
    simp [FunctionInfo.process_cases, List.foldlM, pure, Except.pure]
  | cons c rest ih =>
    intro self cd u e
    rcases c with ⟨v, body, ft⟩
    simp only [FunctionInfo.process_cases, List.foldlM]
    rcases hb : self.process_block body fns cd with err | ⟨s1, cu, ce⟩
    · simp [hb, bind, Except.bind]
    · simp only [hb, bind, Except.bind]
      rw [ih]

/-- C3: the `Switch` arm of the block analyzer implements exactly the
described fold (ref on the selector, branch disruptor, running case
disruptor that inherits a fall-through case's exits, default under the
branch disruptor, join of selector, case and default uniformities and union
of case and default exits), and `from_exit` prefers `Return` over `Kill`. -/
theorem C3_switch_semantics :
    (∀ (self : FunctionInfo) (selector : Nat)
        (cases : List (Int × List Statement × Bool)) (default : List Statement)
        (fns : List FunctionInfo) (disruptor : Option UniformityDisruptor),
        self.process_statement (Statement.Switch selector cases default) fns disruptor =
          switchSpec self selector cases default fns disruptor) ∧
    (∀ flags : ExitFlags,
        UniformityDisruptor.from_exit flags =
          if flags.may_return then some UniformityDisruptor.Return
          else if flags.may_kill then some UniformityDisruptor.Kill
          else none) := by
  constructor
  · intro self selector cases default fns disruptor
    simp only [FunctionInfo.process_statement, switchSpec]
    rcases h0 : self.add_ref selector with ⟨s0, u0⟩
    rw [process_cases_eq_foldlM]
    generalize List.foldlM
        (fun (acc : FunctionInfo × Uniformity × ExitFlags × Option UniformityDisruptor)
            (c : Int × List Statement × Bool) =>
          match acc.1.process_block c.2.1 fns acc.2.2.2 with
          | Except.error e => Except.error e
          | Except.ok (s, cu, ce) =>
            Except.ok (s, acc.2.1.bitor cu, acc.2.2.1.union ce,
              if c.2.2 then acc.2.2.2.or (UniformityDisruptor.from_exit ce)
              else disruptor.or (s0, u0).2.disruptor))
        ((s0, u0).1, (s0, u0).2, ExitFlags.empty, disruptor) cases = r
    rcases r with err | ⟨s1, u1, e1, cdx⟩ <;> rfl
  · intro flags
    rcases flags with ⟨r, k⟩
    cases r <;> cases k <;> rfl

end Naga
namespace Naga

theorem getD_set_general {α : Type} (l : List α) (n m : Nat) (a d : α) :
    (l.set n a).getD m d = if n = m ∧ n < l.length then a else l.getD m d := by
  rw [List.getD_eq_getElem?_getD, List.getD_eq_getElem?_getD, List.getElem?_set]
  by_cases h1 : n = m
  · subst h1
    by_cases h2 : n < l.length
    · simp [h2]
    · simp [h2, List.getElem?_eq_none (Nat.le_of_not_lt h2)]
  · simp [h1]

theorem add_ref_impl_snd (self : FunctionInfo) (h : Nat) (use : GlobalUse) :
    (self.add_ref_impl h use).2 =
      (self.expressions.getD h ExpressionInfo.default).uniformity := rfl

theorem add_ref_impl_expr_uniformity (self : FunctionInfo) (h i : Nat) (use : GlobalUse) :
    ((self.add_ref_impl h use).1.expressions.getD i ExpressionInfo.default).uniformity =
      (self.expressions.getD i ExpressionInfo.default).uniformity := by
  unfold FunctionInfo.add_ref_impl
  dsimp only
  cases (self.expressions.getD h ExpressionInfo.default).assignable_global <;>
    · dsimp only
      rw [getD_set_general]
      split
      · rename_i hc
        rw [← hc.1]
      · rfl

theorem add_ref_impl_expr_uniformity' (self : FunctionInfo) (h i : Nat) (use : GlobalUse) :
    ((self.add_ref_impl h use).1.expressions[i]?.getD ExpressionInfo.default).uniformity =
      (self.expressions[i]?.getD ExpressionInfo.default).uniformity := by
  have := add_ref_impl_expr_uniformity self h i use
  simpa [List.getD_eq_getElem?_getD] using this

/-- C7 (amended): for an `ImageStore{image, coordinate, array_index?, value}`
statement the exit flags are empty and the uniformity is the left-to-right
join of the optional array_index ref FIRST, then add_ref_impl(image, WRITE),
then add_ref(coordinate), then add_ref(value). -/
theorem C7_image_store_amended (self : FunctionInfo) (image coordinate : Nat)
    (array_index : Option Nat) (value : Nat) (fns : List FunctionInfo)
    (dis : Option UniformityDisruptor) :
    (self.process_statement (Statement.ImageStore image coordinate array_index value)
        fns dis).map (fun r => (r.2.1, r.2.2)) =
      .ok
        ((((match array_index with
            | some a => (self.expressions.getD a ExpressionInfo.default).uniformity
            | none => Uniformity.default).bitor
            (self.expressions.getD image ExpressionInfo.default).uniformity).bitor
            (self.expressions.getD coordinate ExpressionInfo.default).uniformity).bitor
          (self.expressions.getD value ExpressionInfo.default).uniformity,
        ExitFlags.empty) := by
  rcases array_index with _ | a <;>
  · simp only [FunctionInfo.process_statement]
    simp [Except.map, FunctionInfo.add_ref, add_ref_impl_snd, add_ref_impl_expr_uniformity,
      add_ref_impl_expr_uniformity']

end Naga
namespace Naga

theorem add_ref_impl_expr_length (self : FunctionInfo) (h : Nat) (use : GlobalUse) :
    (self.add_ref_impl h use).1.expressions.length = self.expressions.length := by
  unfold FunctionInfo.add_ref_impl
  dsimp only
  cases (self.expressions.getD h ExpressionInfo.default).assignable_global <;> simp

/-- C6 (amended): for an `ImageSample` whose image and sampler operands are
direct global-variable expressions, the computed uniformity is the
left-to-right join of add_ref(image), add_ref(sampler), add_ref(coordinate),
the optional array_index ref, the LEVEL contribution (Auto →
require_uniform of the ImageSample's own handle, Zero → default,
Exact/Bias(x) → add_ref(x), Gradient{x,y} → add_ref(x) ⊔ add_ref(y)), and
THEN the depth_ref ref — level before depth_ref. -/
theorem C6_image_sample_amended (self : FunctionInfo) (handle : Nat)
    (arena : List Expression) (gv : List GlobalVariable) (fns : List FunctionInfo)
    (image sampler coordinate : Nat) (array_index offset : Option Nat)
    (level : SampleLevel) (depth_ref : Option Nat) (gi gs : Nat)
    (harena : arena.getD handle Expression.dummy =
      Expression.ImageSample image sampler coordinate array_index offset level depth_ref)
    (hgi : arena.getD image Expression.dummy = Expression.GlobalVariable gi)
    (hgs : arena.getD sampler Expression.dummy = Expression.GlobalVariable gs)
    (hlen : handle < self.expressions.length) :
    (self.process_expression handle arena gv fns).map (Except.map (fun s' =>
        (s'.expressions.getD handle ExpressionInfo.default).uniformity)) =
      some (.ok
        ((((((self.expressions.getD image ExpressionInfo.default).uniformity.bitor
          (self.expressions.getD sampler ExpressionInfo.default).uniformity).bitor
          (self.expressions.getD coordinate ExpressionInfo.default).uniformity).bitor
          (match array_index with
            | some a => (self.expressions.getD a ExpressionInfo.default).uniformity
            | none => Uniformity.default)).bitor
          (match level with
            | SampleLevel.Auto => Uniformity.requireUniform handle
            | SampleLevel.Zero => Uniformity.default
            | SampleLevel.Exact x => (self.expressions.getD x ExpressionInfo.default).uniformity
            | SampleLevel.Bias x => (self.expressions.getD x ExpressionInfo.default).uniformity
            | SampleLevel.Gradient x y =>
              ((self.expressions.getD x ExpressionInfo.default).uniformity).bitor
                (self.expressions.getD y ExpressionInfo.default).uniformity)).bitor
          (match depth_ref with
            | some dr => (self.expressions.getD dr ExpressionInfo.default).uniformity
            | none => Uniformity.default))) := by
  rcases array_index with _ | a <;> rcases depth_ref with _ | dr <;> cases level <;>
  · simp only [FunctionInfo.process_expression, harena, hgi, hgs]
    simp [Option.map, Except.map, FunctionInfo.finishExpression, FunctionInfo.add_ref,
      add_ref_impl_snd, add_ref_impl_expr_uniformity, add_ref_impl_expr_uniformity',
      add_ref_impl_expr_length, getD_set_general, hlen]

end Naga
namespace Naga

/-- Witness for C6 (amended) at a concrete input with Auto level and a depth
ref. -/
theorem C6_witness :
    (FunctionInfo.process_expression
        { uniformity := Uniformity.default, may_kill := false, sampling_set := []
          global_uses := [GlobalUse.empty, GlobalUse.empty]
          expressions := List.replicate 5 ExpressionInfo.default }
        4
        [Expression.GlobalVariable 0, Expression.GlobalVariable 1, Expression.Constant 0,
          Expression.LocalVariable 0,
          Expression.ImageSample 0 1 2 none none SampleLevel.Auto (some 3)]
        [GlobalVariable.dummy, GlobalVariable.dummy] []).map (Except.map (fun s' =>
        (s'.expressions.getD 4 ExpressionInfo.default).uniformity)) =
      some (.ok
        { non_uniform_result := none, require_uniform := some 4 }) := by
  have h := C6_image_sample_amended
    { uniformity := Uniformity.default, may_kill := false, sampling_set := []
      global_uses := [GlobalUse.empty, GlobalUse.empty]
      expressions := List.replicate 5 ExpressionInfo.default }
    4
    [Expression.GlobalVariable 0, Expression.GlobalVariable 1, Expression.Constant 0,
      Expression.LocalVariable 0,
      Expression.ImageSample 0 1 2 none none SampleLevel.Auto (some 3)]
    [GlobalVariable.dummy, GlobalVariable.dummy] []
    0 1 2 none none SampleLevel.Auto (some 3) 0 1 rfl rfl rfl (by decide)
  rw [h]
  rfl

/-- C6 counterexample: the code joins the level contribution BEFORE the
depth_ref ref; with level `Exact 3` (witness 3, a function argument) and
depth_ref 4 (witness 4, a local variable), the recorded non-uniform witness
is 3, while the claim's depth-ref-before-level order predicts 4. -/
theorem C6_counterexample :
    Option.map
        (Except.map (fun s =>
          ((s.expressions.getD 5 ExpressionInfo.default).uniformity.non_uniform_result,
            ((((((s.expressions.getD 0 ExpressionInfo.default).uniformity.bitor
              (s.expressions.getD 1 ExpressionInfo.default).uniformity).bitor
              (s.expressions.getD 2 ExpressionInfo.default).uniformity).bitor
              Uniformity.default).bitor
              (s.expressions.getD 4 ExpressionInfo.default).uniformity).bitor
              (s.expressions.getD 3 ExpressionInfo.default).uniformity).non_uniform_result)))
        (FunctionInfo.process_expression_list
          (initialFunctionInfo
            { expressions := [Expression.GlobalVariable 0, Expression.GlobalVariable 1,
                Expression.Constant 0, Expression.FunctionArgument 0,
                Expression.LocalVariable 0,
                Expression.ImageSample 0 1 2 none none (SampleLevel.Exact 3) (some 4)]
              body := [] }
            [{ binding := none, class' := StorageClass.Uniform, interpolation := none
               storage_access := { load := false, store := false } },
             { binding := none, class' := StorageClass.Uniform, interpolation := none
               storage_access := { load := false, store := false } }])
          (List.range 6)
          [Expression.GlobalVariable 0, Expression.GlobalVariable 1,
            Expression.Constant 0, Expression.FunctionArgument 0, Expression.LocalVariable 0,
            Expression.ImageSample 0 1 2 none none (SampleLevel.Exact 3) (some 4)]
          [{ binding := none, class' := StorageClass.Uniform, interpolation := none
             storage_access := { load := false, store := false } },
           { binding := none, class' := StorageClass.Uniform, interpolation := none
             storage_access := { load := false, store := false } }] []) =
      some (.ok (some 3, some 4)) ∧ (3 : Nat) ≠ 4 :=
  ⟨rfl, by decide⟩

/-- C7 counterexample: the code joins the array_index ref BEFORE the image
ref; with a non-uniform array index (witness 0) and a non-uniform image
operand (witness 1), the statement's uniformity carries witness 0, while
the claim's image-first order predicts witness 1. -/
theorem C7_counterexample :
    (FunctionInfo.process_statement
        { uniformity := Uniformity.default, may_kill := false, sampling_set := []
          global_uses := []
          expressions :=
            [{ uniformity := { non_uniform_result := some 0, require_uniform := none }
               ref_count := 0, assignable_global := none },
             { uniformity := { non_uniform_result := some 1, require_uniform := none }
               ref_count := 0, assignable_global := none },
             ExpressionInfo.default, ExpressionInfo.default] }
        (Statement.ImageStore 1 2 (some 0) 3) [] none).map (fun r => (r.2.1, r.2.2)) =
      .ok ({ non_uniform_result := some 0, require_uniform := none }, ExitFlags.empty) ∧
    ((({ non_uniform_result := some 1, require_uniform := none } : Uniformity).bitor
        Uniformity.default).bitor
        { non_uniform_result := some 0, require_uniform := none }).bitor
        Uniformity.default =
      { non_uniform_result := some 1, require_uniform := none } ∧
    ({ non_uniform_result := some 0, require_uniform := none } : Uniformity) ≠
      { non_uniform_result := some 1, require_uniform := none } :=
  ⟨rfl, rfl, by decide⟩

end Naga
namespace Naga

mutual

/-- Modelled from the spec (claim C4): a statement contains a reachable
`Kill`, or a `Call` statement whose target function may kill. -/
def stmtKill (fns : List FunctionInfo) : Statement → Bool
  | .Kill => true
  | .Block b => blockKill fns b
  | .If _ accept reject => blockKill fns accept || blockKill fns reject
  | .Switch _ cases default => casesKill fns cases || blockKill fns default
  | .Loop body continuing => blockKill fns body || blockKill fns continuing
  | .Call function _ _ => (fns.getD function FunctionInfo.dummy).may_kill
  | _ => false

/-- Modelled from the spec (claim C4): some statement of the block kills. -/
def blockKill (fns : List FunctionInfo) : List Statement → Bool
  | [] => false
  | s :: rest => stmtKill fns s || blockKill fns rest

/-- Modelled from the spec (claim C4): some switch case body kills. -/
def casesKill (fns : List FunctionInfo) : List (Int × List Statement × Bool) → Bool
  | [] => false
  | (_, body, _) :: rest => blockKill fns body || casesKill fns rest

end

def KillStmtP (self : FunctionInfo) (stmt : Statement) (fns : List FunctionInfo)
    (dis : Option UniformityDisruptor) : Prop :=
  (self.statement_viol stmt fns dis).2.2.1.may_kill = stmtKill fns stmt

def KillCasesP (self : FunctionInfo) (cases : List (Int × List Statement × Bool))
    (fns : List FunctionInfo) (bd cd : Option UniformityDisruptor)
    (u : Uniformity) (e : ExitFlags) : Prop :=
  (self.cases_viol cases fns bd cd u e).2.2.1.may_kill = (e.may_kill || casesKill fns cases)

def KillBlockP (self : FunctionInfo) (stmts : List Statement) (fns : List FunctionInfo)
    (dis : Option UniformityDisruptor) : Prop :=
  (self.block_viol stmts fns dis).2.2.1.may_kill = blockKill fns stmts

theorem block_viol_kill (self : FunctionInfo) (stmts : List Statement)
    (fns : List FunctionInfo) (dis : Option UniformityDisruptor) :
    KillBlockP self stmts fns dis := by
  refine FunctionInfo.block_viol.induct KillStmtP KillCasesP KillBlockP
    ?pEmit ?pBreak ?pContinue ?pKill ?pBlock ?pIf ?pSwitch ?pLoop ?pReturn ?pStore
    ?pImageStore ?pCall ?pNil ?pCons ?pCasesNil ?pCasesCons self stmts fns dis
  case pEmit =>
    intro self fns dis
    simp [KillStmtP, FunctionInfo.statement_viol, stmtKill, ExitFlags.empty]
  case pBreak =>
    intro self fns dis
    simp [KillStmtP, FunctionInfo.statement_viol, stmtKill, ExitFlags.empty]
  case pContinue =>
    intro self fns dis
    simp [KillStmtP, FunctionInfo.statement_viol, stmtKill, ExitFlags.empty]
  case pKill =>
    intro self fns dis
    simp [KillStmtP, FunctionInfo.statement_viol, stmtKill, ExitFlags.MAY_KILL]
  case pBlock =>
    intro self fns dis b ih
    simpa [KillStmtP, KillBlockP, FunctionInfo.statement_viol, stmtKill] using ih
  case pIf =>
    intro self fns dis condition accept reject s2 u2 hadd bd sa ua ea va hA sb ub eb vb hB ihA ihB
    have hbd : bd = dis.or u2.disruptor := rfl
    rw [hbd] at hA hB ihA ihB
    rw [KillBlockP, hA] at ihA
    rw [KillBlockP, hB] at ihB
    simp only [KillStmtP, FunctionInfo.statement_viol, stmtKill, hadd, hA, hB]
    simp only at ihA ihB
    simp [ExitFlags.union, ihA, ihB]
  case pSwitch =>
    intro self fns dis selector cases default s2 u2 hadd bd sc uc ec vc hC sd ud ed vd hD ihC ihD
    have hbd : bd = dis.or u2.disruptor := rfl
    rw [hbd] at hC hD ihC ihD
    rw [KillCasesP, hC] at ihC
    rw [KillBlockP, hD] at ihD
    simp only [KillStmtP, FunctionInfo.statement_viol, stmtKill, hadd, hC, hD]
    simp only at ihC ihD
    simp only [ExitFlags.empty] at ihC
    simp [ExitFlags.union, ihC, ihD]
  case pLoop =>
    intro self fns dis body continuing sb ub eb vb hB bd sc uc ec vc hC ihB ihC
    have hbd : bd = dis.or (UniformityDisruptor.from_exit eb) := rfl
    rw [hbd] at hC ihC
    rw [KillBlockP, hB] at ihB
    rw [KillBlockP, hC] at ihC
    simp only [KillStmtP, FunctionInfo.statement_viol, stmtKill, hB, hC]
    simp only at ihB ihC
    simp [ExitFlags.union, ihB, ihC]
  case pReturn =>
    intro self fns dis value s2 u2 hmatch
    simp [KillStmtP, FunctionInfo.statement_viol, stmtKill, hmatch, ExitFlags.MAY_RETURN]
  case pStore =>
    intro self fns dis pointer value s2 u2 h1 s3 u3 h2
    simp [KillStmtP, FunctionInfo.statement_viol, stmtKill, h1, h2, ExitFlags.empty]
  case pImageStore =>
    intro self fns dis image coordinate array_index value s2 u2 h1 s3 u3 h2 s4 u4 h3 s5 u5 h4
    simp [KillStmtP, FunctionInfo.statement_viol, stmtKill, h1, h2, h3, h4, ExitFlags.empty]
  case pCall =>
    intro self fns dis function arguments result info s2 u2 h1 s3 u3 h2 s4 u4 h3
    have hinfo : info = fns.getD function FunctionInfo.dummy := rfl
    rw [hinfo] at h1
    simp only [KillStmtP, FunctionInfo.statement_viol, stmtKill, h1, h2, h3,
      List.getD_eq_getElem?_getD]
    cases hmk : (fns[function]?.getD FunctionInfo.dummy).may_kill <;>
      simp [hmk, ExitFlags.empty, ExitFlags.MAY_KILL]
  case pNil =>
    intro self fns dis
    simp [KillBlockP, FunctionInfo.block_viol, blockKill, ExitFlags.empty]
  case pCons =>
    intro self fns dis stmt rest s1 u1 e1 v1 hS s2 u2 e2 v2 hR ihS ihR
    rw [KillStmtP, hS] at ihS
    rw [KillBlockP, hR] at ihR
    simp only [KillBlockP, FunctionInfo.block_viol, blockKill, hS, hR]
    simp only at ihS ihR
    simp [ExitFlags.union, ihS, ihR]
  case pCasesNil =>
    intro self fns bd cd u e
    simp [KillCasesP, FunctionInfo.cases_viol, casesKill]
  case pCasesCons =>
    intro self fns bd cd u e v body ft rest s1 cu ce vb hBody u1 e1 cd1 s2 uc ec vc hRest ihBody ihRest
    have hu1 : u1 = u.bitor cu := rfl
    have he1 : e1 = e.union ce := rfl
    have hcd1 : cd1 = if ft then cd.or (UniformityDisruptor.from_exit ce) else bd := rfl
    rw [hu1, he1, hcd1] at hRest ihRest
    rw [KillBlockP, hBody] at ihBody
    rw [KillCasesP, hRest] at ihRest
    simp only [KillCasesP, FunctionInfo.cases_viol, casesKill, hBody, hRest]
    simp only at ihBody ihRest
    simp only [ExitFlags.union] at ihRest
    simp [ExitFlags.union, ihBody, ihRest, Bool.or_assoc]

theorem contains_MAY_KILL (e : ExitFlags) :
    e.contains ExitFlags.MAY_KILL = e.may_kill := by
  rcases e with ⟨r, k⟩
  cases r <;> cases k <;> rfl

/-- C4 (amended): after a successful `processFunction`, `may_kill` is true
iff some statement of the body is (recursively) a `Kill` or a `Call`
statement whose target has `may_kill`; `Call` expressions in the arena do
not contribute. -/
theorem C4_may_kill_amended (fns : List FunctionInfo) (f : Function)
    (gv : List GlobalVariable) (info : FunctionInfo)
    (h : processFunction fns f gv = some (.ok info)) :
    info.may_kill = blockKill fns f.body := by
  simp only [processFunction] at h
  rcases he : (initialFunctionInfo f gv).process_expression_list
      (List.range f.expressions.length) f.expressions gv fns with _ | err | s
  · rw [he] at h; simp at h
  · rw [he] at h; simp at h
  · rw [he] at h
    rcases hb : s.process_block f.body fns none with err | ⟨s2, u2, e2⟩
    · simp [hb] at h
    · simp only [hb] at h
      simp only [Option.some.injEq, Except.ok.injEq] at h
      subst h
      have hsim := (block_sim s f.body fns none).ok_unique hb
      have hk := block_viol_kill s f.body fns none
      rw [KillBlockP, hsim] at hk
      simp only at hk
      simpa [contains_MAY_KILL] using hk

end Naga
namespace Naga

/-- Modelled from the claim (C4): the claimed may-kill predicate, which also
counts `Call` EXPRESSIONS in the function's arena as reachable call
targets. -/
def claimMayKill (fns : List FunctionInfo) (f : Function) : Bool :=
  blockKill fns f.body ||
    f.expressions.any (fun e =>
      match e with
      | Expression.Call g => (fns.getD g FunctionInfo.dummy).may_kill
      | _ => false)

/-- C4 counterexample: function 0 kills; function 1 references it only
through a `Call` EXPRESSION (consumed by `Return`), with no `Call`
statement.  The analysis succeeds with `may_kill = false` for function 1,
while the claim's predicate (which counts Call expressions) is true. -/
theorem C4_counterexample :
    (Analysis.new
        { global_variables := []
          functions :=
            [{ expressions := [], body := [Statement.Kill] },
             { expressions := [Expression.Call 0], body := [Statement.Return (some 0)] }]
          entry_points := [] }).map (Except.map (fun a =>
      ((a.functions.getD 1 FunctionInfo.dummy).may_kill,
        claimMayKill (a.functions.take 1)
          { expressions := [Expression.Call 0], body := [Statement.Return (some 0)] }))) =
      some (.ok (false, true)) ∧ (false : Bool) ≠ true :=
  ⟨rfl, by decide⟩

/-- Witness for C4 (amended) at a concrete function whose body is a single
`Kill`. -/
theorem C4_witness :
    ∃ info, processFunction [] { expressions := [], body := [Statement.Kill] } [] =
        some (.ok info) ∧ info.may_kill = blockKill [] [Statement.Kill] :=
  ⟨_, rfl, C4_may_kill_amended [] { expressions := [], body := [Statement.Kill] } [] _ rfl⟩

end Naga
namespace Naga

theorem GlobalUse.contains_iff (a b : GlobalUse) :
    (a.contains b = true) ↔
      ((b.read = true → a.read = true) ∧ (b.write = true → a.write = true) ∧
        (b.query = true → a.query = true)) := by
  rcases a with ⟨a1, a2, a3⟩
  rcases b with ⟨b1, b2, b3⟩
  cases a1 <;> cases a2 <;> cases a3 <;> cases b1 <;> cases b2 <;> cases b3 <;>
    simp [GlobalUse.contains]

theorem GlobalUse.contains_refl (a : GlobalUse) : a.contains a = true := by
  simp [GlobalUse.contains_iff]

theorem GlobalUse.contains_trans {a b c : GlobalUse} (h1 : b.contains a = true)
    (h2 : c.contains b = true) : c.contains a = true := by
  rw [GlobalUse.contains_iff] at h1 h2 ⊢
  exact ⟨fun h => h2.1 (h1.1 h), fun h => h2.2.1 (h1.2.1 h), fun h => h2.2.2 (h1.2.2 h)⟩

theorem GlobalUse.contains_empty (a : GlobalUse) : a.contains GlobalUse.empty = true := by
  simp [GlobalUse.contains_iff, GlobalUse.empty]

theorem GlobalUse.or_contains_left (a b : GlobalUse) : (a.or b).contains a = true := by
  rw [GlobalUse.contains_iff]
  rcases a with ⟨a1, a2, a3⟩
  rcases b with ⟨b1, b2, b3⟩
  simp [GlobalUse.or]
  exact ⟨fun h => Or.inl h, fun h => Or.inl h, fun h => Or.inl h⟩

theorem GlobalUse.or_contains_right (a b : GlobalUse) : (a.or b).contains b = true := by
  rw [GlobalUse.contains_iff]
  rcases a with ⟨a1, a2, a3⟩
  rcases b with ⟨b1, b2, b3⟩
  simp [GlobalUse.or]
  exact ⟨fun h => Or.inr h, fun h => Or.inr h, fun h => Or.inr h⟩

theorem mem_insertKey_of_mem {s : List SamplingKey} {k : SamplingKey} (k' : SamplingKey)
    (h : k ∈ s) : k ∈ insertKey s k' := by
  unfold insertKey
  split
  · exact h
  · exact List.mem_append_left _ h

theorem mem_foldl_insertKey_of_mem {k : SamplingKey} :
    ∀ (l : List SamplingKey) (s : List SamplingKey), k ∈ s → k ∈ l.foldl insertKey s := by
  intro l
  induction l with
  | nil => intro s h; simpa using h
  | cons x xs ih => intro s h; exact ih _ (mem_insertKey_of_mem x h)

theorem mem_foldl_insertKey_of_mem_list {k : SamplingKey} :
    ∀ (l : List SamplingKey) (s : List SamplingKey), k ∈ l → k ∈ l.foldl insertKey s := by
  intro l
  induction l with
  | nil => intro s h; simp at h
  | cons x xs ih =>
    intro s h
    rcases List.mem_cons.mp h with rfl | h
    · exact mem_foldl_insertKey_of_mem xs _ (mem_insertKey_self s k)
    · exact ih _ h

theorem zipOr_length : ∀ (mine other : List GlobalUse), (zipOr mine other).length = mine.length := by
  intro mine
  induction mine with
  | nil => intro other; cases other <;> simp [zipOr]
  | cons m ms ih => intro other; cases other <;> simp [zipOr, ih]

theorem zipOr_getD : ∀ (mine other : List GlobalUse) (i : Nat),
    (zipOr mine other).getD i GlobalUse.empty =
      if i < mine.length ∧ i < other.length then
        (mine.getD i GlobalUse.empty).or (other.getD i GlobalUse.empty)
      else mine.getD i GlobalUse.empty := by
  intro mine
  induction mine with
  | nil => intro other i; cases other <;> simp [zipOr]
  | cons m ms ih =>
    intro other i
    cases other with
    | nil => simp [zipOr]
    | cons o os =>
      cases i with
      | zero => simp [zipOr]
      | succ j =>
        simpa [zipOr, Nat.succ_lt_succ_iff, List.getD_eq_getElem?_getD] using ih os j

/-- State growth along the analysis: the global-use mask keeps its length and
only gains bits, and the sampling set only gains keys. -/
def infoLE (a b : FunctionInfo) : Prop :=
  a.global_uses.length = b.global_uses.length ∧
  (∀ i, (b.global_uses.getD i GlobalUse.empty).contains
      (a.global_uses.getD i GlobalUse.empty) = true) ∧
  (∀ k, k ∈ a.sampling_set → k ∈ b.sampling_set)

/-- A callee's contribution is recorded in the state: its mask is contained
elementwise and its sampling set is included. -/
def inheritsFrom (gi s : FunctionInfo) : Prop :=
  (∀ i, (s.global_uses.getD i GlobalUse.empty).contains
      (gi.global_uses.getD i GlobalUse.empty) = true) ∧
  (∀ k, k ∈ gi.sampling_set → k ∈ s.sampling_set)

theorem infoLE_refl (a : FunctionInfo) : infoLE a a :=
  ⟨rfl, fun i => GlobalUse.contains_refl _, fun _ h => h⟩

theorem infoLE_trans {a b c : FunctionInfo} (h1 : infoLE a b) (h2 : infoLE b c) :
    infoLE a c :=
  ⟨h1.1.trans h2.1, fun i => GlobalUse.contains_trans (h1.2.1 i) (h2.2.1 i),
    fun k hk => h2.2.2 k (h1.2.2 k hk)⟩

theorem inherits_mono {gi s s' : FunctionInfo} (h1 : inheritsFrom gi s)
    (h2 : infoLE s s') : inheritsFrom gi s' :=
  ⟨fun i => GlobalUse.contains_trans (h1.1 i) (h2.2.1 i),
    fun k hk => h2.2.2 k (h1.2 k hk)⟩

theorem add_ref_impl_le (self : FunctionInfo) (h : Nat) (use : GlobalUse) :
    infoLE self (self.add_ref_impl h use).1 := by
  unfold FunctionInfo.add_ref_impl
  dsimp only
  cases (self.expressions.getD h ExpressionInfo.default).assignable_global with
  | none => exact infoLE_refl _
  | some g =>
    refine ⟨by simp, fun i => ?_, fun k hk => hk⟩
    dsimp only
    rw [getD_set_general]
    split
    · rename_i hc
      rw [← hc.1]
      exact GlobalUse.or_contains_left _ _
    · exact GlobalUse.contains_refl _

theorem add_assignable_ref_le {self s' : FunctionInfo} {h : Nat} {c c' : Option Nat}
    {u : Uniformity} (hr : self.add_assignable_ref h c = some (s', c', u)) :
    infoLE self s' := by
  unfold FunctionInfo.add_assignable_ref at hr
  dsimp only at hr
  rcases ha : (self.expressions.getD h ExpressionInfo.default).assignable_global with _ | g <;>
    rw [ha] at hr
  · simp only [Option.some.injEq, Prod.mk.injEq] at hr
    obtain ⟨rfl, -, -⟩ := hr
    exact ⟨rfl, fun i => GlobalUse.contains_refl _, fun _ hk => hk⟩
  · cases c with
    | some c0 => simp at hr
    | none =>
      simp only [Option.some.injEq, Prod.mk.injEq] at hr
      obtain ⟨rfl, -, -⟩ := hr
      exact ⟨rfl, fun i => GlobalUse.contains_refl _, fun _ hk => hk⟩

theorem process_call_le (self info : FunctionInfo) :
    infoLE self (self.process_call info).1 := by
  unfold FunctionInfo.process_call
  dsimp only
  refine ⟨(zipOr_length _ _).symm, fun i => ?_, fun k hk => mem_foldl_insertKey_of_mem _ _ hk⟩
  rw [zipOr_getD]
  split
  · exact GlobalUse.or_contains_left _ _
  · exact GlobalUse.contains_refl _

theorem process_call_inherits (self info : FunctionInfo)
    (hlen : info.global_uses.length ≤ self.global_uses.length) :
    inheritsFrom info (self.process_call info).1 := by
  unfold FunctionInfo.process_call
  dsimp only
  refine ⟨fun i => ?_, fun k hk => mem_foldl_insertKey_of_mem_list _ _ hk⟩
  rw [zipOr_getD]
  by_cases hi : i < info.global_uses.length
  · rw [if_pos ⟨Nat.lt_of_lt_of_le hi hlen, hi⟩]
    exact GlobalUse.or_contains_right _ _
  · have : info.global_uses.getD i GlobalUse.empty = GlobalUse.empty := by
      rw [List.getD_eq_getElem?_getD, List.getElem?_eq_none (Nat.le_of_not_lt hi)]
      rfl
    rw [this]
    exact GlobalUse.contains_empty _

theorem finishExpression_le (self : FunctionInfo) (h : Nat) (u : Uniformity)
    (ag : Option Nat) : infoLE self (self.finishExpression h u ag) :=
  ⟨rfl, fun i => GlobalUse.contains_refl _, fun _ hk => hk⟩

end Naga
namespace Naga

theorem add_ref_le (self : FunctionInfo) (h : Nat) : infoLE self (self.add_ref h).1 :=
  add_ref_impl_le self h GlobalUse.READ

theorem sampling_seed_le (self : FunctionInfo) (k : SamplingKey) :
    infoLE self { self with sampling_set := insertKey self.sampling_set k } :=
  ⟨rfl, fun i => GlobalUse.contains_refl _, fun _ hk => mem_insertKey_of_mem k hk⟩

theorem opt_add_ref_le (self : FunctionInfo) (o : Option Nat) :
    infoLE self
      (match o with
        | some h => self.add_ref h
        | none => (self, Uniformity.default)).1 := by
  cases o with
  | none => exact infoLE_refl _
  | some h => exact add_ref_le _ _

theorem level_add_le (self : FunctionInfo) (lv : SampleLevel) (handle : Nat) :
    infoLE self
      (match lv with
        | SampleLevel.Auto => (self, Uniformity.requireUniform handle)
        | SampleLevel.Zero => (self, Uniformity.default)
        | SampleLevel.Exact h => self.add_ref h
        | SampleLevel.Bias h => self.add_ref h
        | SampleLevel.Gradient x y =>
          let (sa, ux) := self.add_ref x
          let (sb, uy) := sa.add_ref y
          (sb, ux.bitor uy)).1 := by
  cases lv with
  | Auto => exact infoLE_refl _
  | Zero => exact infoLE_refl _
  | Exact h => exact add_ref_le _ _
  | Bias h => exact add_ref_le _ _
  | Gradient x y => exact infoLE_trans (add_ref_le _ x) (add_ref_le _ y)

theorem query_add_le (self : FunctionInfo) (q : ImageQuery) :
    infoLE self
      (match q with
        | ImageQuery.Size (some h) => self.add_ref h
        | _ => (self, Uniformity.default)).1 := by
  rcases q with ⟨_ | lh⟩ | _ | _ | _
  · exact infoLE_refl _
  · exact add_ref_le _ _
  · exact infoLE_refl _
  · exact infoLE_refl _
  · exact infoLE_refl _

theorem foldl_add_ref_le :
    ∀ (l : List Nat) (p : FunctionInfo × Uniformity),
      infoLE p.1
        (l.foldl
          (fun (q : FunctionInfo × Uniformity) comp =>
            let (s, u) := q.1.add_ref comp
            (s, q.2.bitor u)) p).1 := by
  intro l
  induction l with
  | nil => intro p; exact infoLE_refl _
  | cons x xs ih =>
    intro p
    rw [List.foldl_cons]
    refine infoLE_trans ?_ (ih _)
    exact add_ref_le p.1 x

theorem process_expression_le {self s' : FunctionInfo} {h : Nat}
    {arena : List Expression} {gv : List GlobalVariable} {fns : List FunctionInfo}
    (hr : self.process_expression h arena gv fns = some (.ok s')) :
    infoLE self s' := by
  cases harena : arena.getD h Expression.dummy
  all_goals simp only [FunctionInfo.process_expression, harena] at hr
  case Access base index =>
    rcases haar : self.add_assignable_ref base none with _ | ⟨s1, ag, u1⟩ <;> rw [haar] at hr
    · simp at hr
    · simp only [Option.some.injEq, Except.ok.injEq] at hr
      subst hr
      exact infoLE_trans (add_assignable_ref_le haar)
        (infoLE_trans (add_ref_le _ _) (finishExpression_le _ _ _ _))
  case AccessIndex base index =>
    rcases haar : self.add_assignable_ref base none with _ | ⟨s1, ag, u1⟩ <;> rw [haar] at hr
    · simp at hr
    · simp only [Option.some.injEq, Except.ok.injEq] at hr
      subst hr
      exact infoLE_trans (add_assignable_ref_le haar) (finishExpression_le _ _ _ _)
  case Constant c =>
    simp only [Option.some.injEq, Except.ok.injEq] at hr
    subst hr
    exact finishExpression_le _ _ _ _
  case Compose components =>
    simp only [Option.some.injEq, Except.ok.injEq] at hr
    subst hr
    exact infoLE_trans (foldl_add_ref_le components (self, Uniformity.default))
      (finishExpression_le _ _ _ _)
  case FunctionArgument i =>
    simp only [Option.some.injEq, Except.ok.injEq] at hr
    subst hr
    exact finishExpression_le _ _ _ _
  case GlobalVariable gh =>
    simp only [Option.some.injEq, Except.ok.injEq] at hr
    subst hr
    exact finishExpression_le _ _ _ _
  case LocalVariable l =>
    simp only [Option.some.injEq, Except.ok.injEq] at hr
    subst hr
    exact finishExpression_le _ _ _ _
  case Load pointer =>
    simp only [Option.some.injEq, Except.ok.injEq] at hr
    subst hr
    exact infoLE_trans (add_ref_le _ _) (finishExpression_le _ _ _ _)
  case ImageSample image sampler coordinate array_index offset level depth_ref =>
    split at hr
    · split at hr
      · simp only [Option.some.injEq, Except.ok.injEq] at hr
        subst hr
        exact infoLE_trans (sampling_seed_le _ _)
          (infoLE_trans (opt_add_ref_le _ array_index)
            (infoLE_trans (level_add_le _ level h)
              (infoLE_trans (opt_add_ref_le _ depth_ref)
                (infoLE_trans (add_ref_le _ image)
                  (infoLE_trans (add_ref_le _ sampler)
                    (infoLE_trans (add_ref_le _ coordinate)
                      (finishExpression_le _ _ _ _)))))))
      · simp at hr
    · simp at hr
  case ImageLoad image coordinate array_index index =>
    simp only [Option.some.injEq, Except.ok.injEq] at hr
    subst hr
    exact infoLE_trans (opt_add_ref_le _ array_index)
      (infoLE_trans (opt_add_ref_le _ index)
        (infoLE_trans (add_ref_le _ image)
          (infoLE_trans (add_ref_le _ coordinate) (finishExpression_le _ _ _ _))))
  case ImageQuery image query =>
    simp only [Option.some.injEq, Except.ok.injEq] at hr
    subst hr
    exact infoLE_trans (query_add_le _ query)
      (infoLE_trans (add_ref_impl_le _ image GlobalUse.QUERY) (finishExpression_le _ _ _ _))
  case Unary expr =>
    simp only [Option.some.injEq, Except.ok.injEq] at hr
    subst hr
    exact infoLE_trans (add_ref_le _ _) (finishExpression_le _ _ _ _)
  case Binary left right =>
    simp only [Option.some.injEq, Except.ok.injEq] at hr
    subst hr
    exact infoLE_trans (add_ref_le _ left)
      (infoLE_trans (add_ref_le _ right) (finishExpression_le _ _ _ _))
  case Select condition accept reject =>
    simp only [Option.some.injEq, Except.ok.injEq] at hr
    subst hr
    exact infoLE_trans (add_ref_le _ condition)
      (infoLE_trans (add_ref_le _ accept)
        (infoLE_trans (add_ref_le _ reject) (finishExpression_le _ _ _ _)))
  case Derivative expr =>
    simp only [Option.some.injEq, Except.ok.injEq] at hr
    subst hr
    exact infoLE_trans (add_ref_le _ _) (finishExpression_le _ _ _ _)
  case Relational argument =>
    simp only [Option.some.injEq, Except.ok.injEq] at hr
    subst hr
    exact infoLE_trans (add_ref_le _ _) (finishExpression_le _ _ _ _)
  case Math arg arg1 arg2 =>
    simp only [Option.some.injEq, Except.ok.injEq] at hr
    subst hr
    exact infoLE_trans (opt_add_ref_le _ arg1)
      (infoLE_trans (opt_add_ref_le _ arg2)
        (infoLE_trans (add_ref_le _ arg) (finishExpression_le _ _ _ _)))
  case As expr =>
    simp only [Option.some.injEq, Except.ok.injEq] at hr
    subst hr
    exact infoLE_trans (add_ref_le _ _) (finishExpression_le _ _ _ _)
  case Call function =>
    simp only [Option.some.injEq, Except.ok.injEq] at hr
    subst hr
    exact infoLE_trans (process_call_le _ _) (finishExpression_le _ _ _ _)
  case ArrayLength expr =>
    simp only [Option.some.injEq, Except.ok.injEq] at hr
    subst hr
    exact infoLE_trans (add_ref_impl_le _ expr GlobalUse.QUERY) (finishExpression_le _ _ _ _)

theorem process_expression_call_inherits {self s' : FunctionInfo} {h g : Nat}
    {arena : List Expression} {gv : List GlobalVariable} {fns : List FunctionInfo}
    (harena : arena.getD h Expression.dummy = Expression.Call g)
    (hlen : (fns.getD g FunctionInfo.dummy).global_uses.length ≤ self.global_uses.length)
    (hr : self.process_expression h arena gv fns = some (.ok s')) :
    inheritsFrom (fns.getD g FunctionInfo.dummy) s' := by
  simp only [FunctionInfo.process_expression, harena] at hr
  simp only [Option.some.injEq, Except.ok.injEq] at hr
  subst hr
  exact inherits_mono (process_call_inherits _ _ hlen) (finishExpression_le _ _ _ _)

end Naga
namespace Naga

theorem result_add_le (s2 : FunctionInfo) (u1 : Uniformity) (result : Option Nat) :
    infoLE s2
      (match result with
        | some expr =>
          let (s, u) := s2.add_ref expr
          (s, u1.bitor u)
        | none => (s2, u1)).1 := by
  cases result with
  | none => exact infoLE_refl _
  | some expr => exact add_ref_le _ _

mutual

/-- Modelled from the spec (claim C5): the statement contains a reachable
`Call` statement whose target is function `g`. -/
def stmtCalls (g : Nat) : Statement → Bool
  | .Block b => blockCalls g b
  | .If _ accept reject => blockCalls g accept || blockCalls g reject
  | .Switch _ cases default => casesCalls g cases || blockCalls g default
  | .Loop body continuing => blockCalls g body || blockCalls g continuing
  | .Call function _ _ => function == g
  | _ => false

/-- Modelled from the spec (claim C5): some statement of the block calls `g`. -/
def blockCalls (g : Nat) : List Statement → Bool
  | [] => false
  | s :: rest => stmtCalls g s || blockCalls g rest

/-- Modelled from the spec (claim C5): some switch case body calls `g`. -/
def casesCalls (g : Nat) : List (Int × List Statement × Bool) → Bool
  | [] => false
  | (_, body, _) :: rest => blockCalls g body || casesCalls g rest

end

def CallStmtP (self : FunctionInfo) (stmt : Statement) (fns : List FunctionInfo)
    (dis : Option UniformityDisruptor) : Prop :=
  infoLE self (self.statement_viol stmt fns dis).1 ∧
  ∀ g, stmtCalls g stmt = true →
    (fns.getD g FunctionInfo.dummy).global_uses.length ≤ self.global_uses.length →
    inheritsFrom (fns.getD g FunctionInfo.dummy) (self.statement_viol stmt fns dis).1

def CallCasesP (self : FunctionInfo) (cases : List (Int × List Statement × Bool))
    (fns : List FunctionInfo) (bd cd : Option UniformityDisruptor)
    (u : Uniformity) (e : ExitFlags) : Prop :=
  infoLE self (self.cases_viol cases fns bd cd u e).1 ∧
  ∀ g, casesCalls g cases = true →
    (fns.getD g FunctionInfo.dummy).global_uses.length ≤ self.global_uses.length →
    inheritsFrom (fns.getD g FunctionInfo.dummy) (self.cases_viol cases fns bd cd u e).1

def CallBlockP (self : FunctionInfo) (stmts : List Statement) (fns : List FunctionInfo)
    (dis : Option UniformityDisruptor) : Prop :=
  infoLE self (self.block_viol stmts fns dis).1 ∧
  ∀ g, blockCalls g stmts = true →
    (fns.getD g FunctionInfo.dummy).global_uses.length ≤ self.global_uses.length →
    inheritsFrom (fns.getD g FunctionInfo.dummy) (self.block_viol stmts fns dis).1

theorem block_viol_calls (self : FunctionInfo) (stmts : List Statement)
    (fns : List FunctionInfo) (dis : Option UniformityDisruptor) :
    CallBlockP self stmts fns dis := by
  refine FunctionInfo.block_viol.induct CallStmtP CallCasesP CallBlockP
    ?pEmit ?pBreak ?pContinue ?pKill ?pBlock ?pIf ?pSwitch ?pLoop ?pReturn ?pStore
    ?pImageStore ?pCall ?pNil ?pCons ?pCasesNil ?pCasesCons self stmts fns dis
  case pEmit =>
    intro self fns dis
    simp only [CallStmtP, FunctionInfo.statement_viol]
    exact ⟨infoLE_refl _, fun g hg _ => by simp [stmtCalls] at hg⟩
  case pBreak =>
    intro self fns dis
    simp only [CallStmtP, FunctionInfo.statement_viol]
    exact ⟨infoLE_refl _, fun g hg _ => by simp [stmtCalls] at hg⟩
  case pContinue =>
    intro self fns dis
    simp only [CallStmtP, FunctionInfo.statement_viol]
    exact ⟨infoLE_refl _, fun g hg _ => by simp [stmtCalls] at hg⟩
  case pKill =>
    intro self fns dis
    simp only [CallStmtP, FunctionInfo.statement_viol]
    exact ⟨infoLE_refl _, fun g hg _ => by simp [stmtCalls] at hg⟩
  case pBlock =>
    intro self fns dis b ih
    simpa [CallStmtP, CallBlockP, FunctionInfo.statement_viol, stmtCalls] using ih
  case pIf =>
    intro self fns dis condition accept reject s2 u2 hadd bd sa ua ea va hA sb ub eb vb hB ihA ihB
    have hbd : bd = dis.or u2.disruptor := rfl
    rw [hbd] at hA hB ihA ihB
    rw [CallBlockP, hA] at ihA
    rw [CallBlockP, hB] at ihB
    simp only at ihA ihB
    simp only [CallStmtP, FunctionInfo.statement_viol, stmtCalls, hadd, hA, hB]
    have h0 : infoLE self s2 := by
      have h0' := add_ref_le self condition
      rw [hadd] at h0'
      exact h0'
    refine ⟨infoLE_trans h0 (infoLE_trans ihA.1 ihB.1), ?_⟩
    intro g hg hlen
    simp only [Bool.or_eq_true] at hg
    have hlen2 : (fns.getD g FunctionInfo.dummy).global_uses.length ≤
        s2.global_uses.length := by
      rw [← h0.1]; exact hlen
    rcases hg with hg | hg
    · exact inherits_mono (ihA.2 g hg hlen2) ihB.1
    · have hlen3 : (fns.getD g FunctionInfo.dummy).global_uses.length ≤
          sa.global_uses.length := by
        rw [← ihA.1.1]; exact hlen2
      exact ihB.2 g hg hlen3
  case pSwitch =>
    intro self fns dis selector cases default s2 u2 hadd bd sc uc ec vc hC sd ud ed vd hD ihC ihD
    have hbd : bd = dis.or u2.disruptor := rfl
    rw [hbd] at hC hD ihC ihD
    rw [CallCasesP, hC] at ihC
    rw [CallBlockP, hD] at ihD
    simp only at ihC ihD
    simp only [CallStmtP, FunctionInfo.statement_viol, stmtCalls, hadd, hC, hD]
    have h0 : infoLE self s2 := by
      have h0' := add_ref_le self selector
      rw [hadd] at h0'
      exact h0'
    refine ⟨infoLE_trans h0 (infoLE_trans ihC.1 ihD.1), ?_⟩
    intro g hg hlen
    simp only [Bool.or_eq_true] at hg
    have hlen2 : (fns.getD g FunctionInfo.dummy).global_uses.length ≤
        s2.global_uses.length := by
      rw [← h0.1]; exact hlen
    rcases hg with hg | hg
    · exact inherits_mono (ihC.2 g hg hlen2) ihD.1
    · have hlen3 : (fns.getD g FunctionInfo.dummy).global_uses.length ≤
          sc.global_uses.length := by
        rw [← ihC.1.1]; exact hlen2
      exact ihD.2 g hg hlen3
  case pLoop =>
    intro self fns dis body continuing sb ub eb vb hB bd sc uc ec vc hC ihB ihC
    have hbd : bd = dis.or (UniformityDisruptor.from_exit eb) := rfl
    rw [hbd] at hC ihC
    rw [CallBlockP, hB] at ihB
    rw [CallBlockP, hC] at ihC
    simp only at ihB ihC
    simp only [CallStmtP, FunctionInfo.statement_viol, stmtCalls, hB, hC]
    refine ⟨infoLE_trans ihB.1 ihC.1, ?_⟩
    intro g hg hlen
    simp only [Bool.or_eq_true] at hg
    rcases hg with hg | hg
    · exact inherits_mono (ihB.2 g hg hlen) ihC.1
    · have hlen2 : (fns.getD g FunctionInfo.dummy).global_uses.length ≤
          sb.global_uses.length := by
        rw [← ihB.1.1]; exact hlen
      exact ihC.2 g hg hlen2
  case pReturn =>
    intro self fns dis value s2 u2 hmatch
    simp only [CallStmtP, FunctionInfo.statement_viol, stmtCalls, hmatch]
    refine ⟨?_, fun g hg _ => by simp at hg⟩
    have h0 := opt_add_ref_le self value
    rw [hmatch] at h0
    exact h0
  case pStore =>
    intro self fns dis pointer value s2 u2 h1 s3 u3 h2
    simp only [CallStmtP, FunctionInfo.statement_viol, stmtCalls, h1, h2]
    refine ⟨?_, fun g hg _ => by simp at hg⟩
    have a1 := add_ref_impl_le self pointer GlobalUse.WRITE
    rw [h1] at a1
    have a2 := add_ref_le s2 value
    rw [h2] at a2
    exact infoLE_trans a1 a2
  case pImageStore =>
    intro self fns dis image coordinate array_index value s2 u2 h1 s3 u3 h2 s4 u4 h3 s5 u5 h4
    simp only [CallStmtP, FunctionInfo.statement_viol, stmtCalls, h1, h2, h3, h4]
    refine ⟨?_, fun g hg _ => by simp at hg⟩
    have a1 := opt_add_ref_le self array_index
    rw [h1] at a1
    have a2 := add_ref_impl_le s2 image GlobalUse.WRITE
    rw [h2] at a2
    have a3 := add_ref_le s3 coordinate
    rw [h3] at a3
    have a4 := add_ref_le s4 value
    rw [h4] at a4
    exact infoLE_trans a1 (infoLE_trans a2 (infoLE_trans a3 a4))
  case pCall =>
    intro self fns dis function arguments result info s2 u2 h1 s3 u3 h2 s4 u4 h3
    have hinfo : info = fns.getD function FunctionInfo.dummy := rfl
    rw [hinfo] at h1
    simp only [CallStmtP, FunctionInfo.statement_viol, stmtCalls, h1, h2, h3]
    have a1 := process_call_le self (fns.getD function FunctionInfo.dummy)
    rw [h1] at a1
    have a2 := foldl_add_ref_le arguments (s2, u2)
    rw [h2] at a2
    have a3 := result_add_le s3 u3 result
    rw [h3] at a3
    refine ⟨infoLE_trans a1 (infoLE_trans a2 a3), ?_⟩
    intro g hg hlen
    have hfg : function = g := by simpa using hg
    subst hfg
    have i1 := process_call_inherits self (fns.getD function FunctionInfo.dummy) hlen
    rw [h1] at i1
    exact inherits_mono i1 (infoLE_trans a2 a3)
  case pNil =>
    intro self fns dis
    simp only [CallBlockP, FunctionInfo.block_viol]
    exact ⟨infoLE_refl _, fun g hg _ => by simp [blockCalls] at hg⟩
  case pCons =>
    intro self fns dis stmt rest s1 u1 e1 v1 hS s2 u2 e2 v2 hR ihS ihR
    rw [CallStmtP, hS] at ihS
    rw [CallBlockP, hR] at ihR
    simp only at ihS ihR
    simp only [CallBlockP, FunctionInfo.block_viol, blockCalls, hS, hR]
    refine ⟨infoLE_trans ihS.1 ihR.1, ?_⟩
    intro g hg hlen
    simp only [Bool.or_eq_true] at hg
    rcases hg with hg | hg
    · exact inherits_mono (ihS.2 g hg hlen) ihR.1
    · have hlen2 : (fns.getD g FunctionInfo.dummy).global_uses.length ≤
          s1.global_uses.length := by
        rw [← ihS.1.1]; exact hlen
      exact ihR.2 g hg hlen2
  case pCasesNil =>
    intro self fns bd cd u e
    simp only [CallCasesP, FunctionInfo.cases_viol]
    exact ⟨infoLE_refl _, fun g hg _ => by simp [casesCalls] at hg⟩
  case pCasesCons =>
    intro self fns bd cd u e v body ft rest s1 cu ce vb hBody u1 e1 cd1 s2 uc ec vc hRest ihBody ihRest
    have hu1 : u1 = u.bitor cu := rfl
    have he1 : e1 = e.union ce := rfl
    have hcd1 : cd1 = if ft then cd.or (UniformityDisruptor.from_exit ce) else bd := rfl
    rw [hu1, he1, hcd1] at hRest ihRest
    rw [CallBlockP, hBody] at ihBody
    rw [CallCasesP, hRest] at ihRest
    simp only at ihBody ihRest
    simp only [CallCasesP, FunctionInfo.cases_viol, casesCalls, hBody, hRest]
    refine ⟨infoLE_trans ihBody.1 ihRest.1, ?_⟩
    intro g hg hlen
    simp only [Bool.or_eq_true] at hg
    rcases hg with hg | hg
    · exact inherits_mono (ihBody.2 g hg hlen) ihRest.1
    · have hlen2 : (fns.getD g FunctionInfo.dummy).global_uses.length ≤
          s1.global_uses.length := by
        rw [← ihBody.1.1]; exact hlen
      exact ihRest.2 g hg hlen2

end Naga
namespace Naga

/-- Transfer of the collector's monotonicity and call-inheritance facts to a
successful fail-fast `process_block` run. -/
theorem process_block_calls {self s2 : FunctionInfo} {stmts : List Statement}
    {fns : List FunctionInfo} {dis : Option UniformityDisruptor}
    {u : Uniformity} {e : ExitFlags}
    (h : self.process_block stmts fns dis = .ok (s2, u, e)) :
    infoLE self s2 ∧
    ∀ g, blockCalls g stmts = true →
      (fns.getD g FunctionInfo.dummy).global_uses.length ≤ self.global_uses.length →
      inheritsFrom (fns.getD g FunctionInfo.dummy) s2 := by
  have hsim := (block_sim self stmts fns dis).ok_unique h
  have hc := block_viol_calls self stmts fns dis
  rw [CallBlockP, hsim] at hc
  simpa using hc

theorem process_expression_list_calls :
    ∀ (handles : List Nat) (self s' : FunctionInfo) (arena : List Expression)
      (gv : List GlobalVariable) (fns : List FunctionInfo),
      self.process_expression_list handles arena gv fns = some (.ok s') →
      infoLE self s' ∧
      ∀ g, (∃ hh, hh ∈ handles ∧ arena.getD hh Expression.dummy = Expression.Call g) →
        (fns.getD g FunctionInfo.dummy).global_uses.length ≤ self.global_uses.length →
        inheritsFrom (fns.getD g FunctionInfo.dummy) s' := by
  intro handles
  induction handles with
  | nil =>
    intro self s' arena gv fns h
    simp only [FunctionInfo.process_expression_list, Option.some.injEq,
      Except.ok.injEq] at h
    subst h
    exact ⟨infoLE_refl _, fun g hg _ => by simp at hg⟩
  | cons hh rest ih =>
    intro self s' arena gv fns h
    simp only [FunctionInfo.process_expression_list] at h
    rcases he : self.process_expression hh arena gv fns with _ | e1 | s1
    · rw [he] at h; simp at h
    · rw [he] at h; simp at h
    · rw [he] at h
      obtain ⟨ih1, ih2⟩ := ih s1 s' arena gv fns h
      have h0 : infoLE self s1 := process_expression_le he
      refine ⟨infoLE_trans h0 ih1, ?_⟩
      intro g hg hlen
      obtain ⟨hw, hmem, harena⟩ := hg
      rcases List.mem_cons.mp hmem with hw0 | hwrest
      · subst hw0
        exact inherits_mono (process_expression_call_inherits harena hlen he) ih1
      · have hlen2 : (fns.getD g FunctionInfo.dummy).global_uses.length ≤
            s1.global_uses.length := by
          rw [← h0.1]; exact hlen
        exact ih2 g ⟨hw, hwrest, harena⟩ hlen2

/-- Modelled from the spec (claim C5): function `f` calls function `g`,
through a `Call` statement in its body or a `Call` expression in its arena. -/
def funCalls (f : Function) (g : Nat) : Bool :=
  blockCalls g f.body ||
    f.expressions.any (fun e =>
      match e with
      | Expression.Call h => h == g
      | _ => false)

theorem any_call_exists {l : List Expression} {g : Nat}
    (h : l.any (fun e =>
        match e with
        | Expression.Call hh => hh == g
        | _ => false) = true) :
    ∃ i, i ∈ List.range l.length ∧ l.getD i Expression.dummy = Expression.Call g := by
  rw [List.any_eq_true] at h
  obtain ⟨e, he, hp⟩ := h
  obtain ⟨i, hi, hgetl⟩ := List.getElem_of_mem he
  refine ⟨i, List.mem_range.mpr hi, ?_⟩
  have hgd : l.getD i Expression.dummy = e := by
    simp [List.getD_eq_getElem?_getD, List.getElem?_eq_getElem hi, hgetl]
  rw [hgd]
  cases e <;> simp at hp
  case Call hh => rw [hp]

def Function.dummy : Function :=
  { expressions := [], body := [] }

theorem initialFunctionInfo_length (f : Function) (gv : List GlobalVariable) :
    (initialFunctionInfo f gv).global_uses.length = gv.length := by
  simp [initialFunctionInfo]

/-- A successful `processFunction` run only grows the accumulated use
information, and absorbs the masks and sampling sets of every function the
analyzed function calls. -/
theorem processFunction_calls {fns : List FunctionInfo} {f : Function}
    {gv : List GlobalVariable} {info : FunctionInfo}
    (h : processFunction fns f gv = some (.ok info)) :
    info.global_uses.length = gv.length ∧
    ∀ g, funCalls f g = true →
      (fns.getD g FunctionInfo.dummy).global_uses.length ≤ gv.length →
      inheritsFrom (fns.getD g FunctionInfo.dummy) info := by
  simp only [processFunction] at h
  rcases he : (initialFunctionInfo f gv).process_expression_list
      (List.range f.expressions.length) f.expressions gv fns with _ | e1 | s
  · rw [he] at h; simp at h
  · rw [he] at h; simp at h
  · rw [he] at h
    rcases hb : s.process_block f.body fns none with e1 | ⟨s2, u2, e2⟩
    · simp [hb] at h
    · simp only [hb] at h
      simp only [Option.some.injEq, Except.ok.injEq] at h
      obtain ⟨hexpr1, hexpr2⟩ := process_expression_list_calls _ _ _ _ _ _ he
      obtain ⟨hblk1, hblk2⟩ := process_block_calls hb
      have hlen0 : s.global_uses.length = gv.length := by
        rw [← hexpr1.1, initialFunctionInfo_length]
      have hinfo_uses : info.global_uses = s2.global_uses := by
        rw [← h]
      have hinfo_samp : info.sampling_set = s2.sampling_set := by
        rw [← h]
      constructor
      · rw [hinfo_uses, ← hblk1.1, hlen0]
      · intro g hg hlen
        have hle2 : (fns.getD g FunctionInfo.dummy).global_uses.length ≤
            s.global_uses.length := by rw [hlen0]; exact hlen
        have hle1 : (fns.getD g FunctionInfo.dummy).global_uses.length ≤
            (initialFunctionInfo f gv).global_uses.length := by
          rw [initialFunctionInfo_length]; exact hlen
        have hres : inheritsFrom (fns.getD g FunctionInfo.dummy) s2 := by
          simp only [funCalls, Bool.or_eq_true] at hg
          rcases hg with hgb | hga
          · exact hblk2 g hgb hle2
          · exact inherits_mono
              (hexpr2 g (any_call_exists hga) hle1) hblk1
        rcases hres with ⟨hres1, hres2⟩
        exact ⟨fun i => by rw [hinfo_uses]; exact hres1 i,
          fun k hk => by rw [hinfo_samp]; exact hres2 k hk⟩

end Naga
namespace Naga

theorem getD_take {l : List FunctionInfo} {i n : Nat} (h : i < n) :
    (l.take n).getD i FunctionInfo.dummy = l.getD i FunctionInfo.dummy := by
  simp [List.getD_eq_getElem?_getD, List.getElem?_take, h]

theorem processFunctions_spec :
    ∀ (funs : List Function) (acc out : List FunctionInfo) (gv : List GlobalVariable),
      processFunctions acc funs gv = some (.ok out) →
      out.length = acc.length + funs.length ∧
      out.take acc.length = acc ∧
      ∀ k, k < funs.length →
        processFunction (out.take (acc.length + k)) (funs.getD k Function.dummy) gv =
          some (.ok (out.getD (acc.length + k) FunctionInfo.dummy)) := by
  intro funs
  induction funs with
  | nil =>
    intro acc out gv h
    simp only [processFunctions, Option.some.injEq, Except.ok.injEq] at h
    subst h
    exact ⟨by simp, by simp, fun k hk => by simp at hk⟩
  | cons f rest ih =>
    intro acc out gv h
    simp only [processFunctions] at h
    rcases hf : processFunction acc f gv with _ | e | info
    · rw [hf] at h; simp at h
    · rw [hf] at h; simp at h
    · rw [hf] at h
      obtain ⟨ih1, ih2, ih3⟩ := ih (acc ++ [info]) out gv h
      have htake1 : out.take (acc.length + 1) = acc ++ [info] := by
        simpa [List.length_append] using ih2
      have htake0 : out.take acc.length = acc := by
        have h1 : (out.take (acc.length + 1)).take acc.length = out.take acc.length := by
          rw [List.take_take]
          congr 1
          omega
        rw [← h1, htake1]
        simpa using List.take_left acc [info]
      have hgetD : out.getD acc.length FunctionInfo.dummy = info := by
        have h1 : (out.take (acc.length + 1)).getD acc.length FunctionInfo.dummy =
            out.getD acc.length FunctionInfo.dummy := getD_take (Nat.lt_succ_self _)
        rw [← h1, htake1]
        simp [List.getD_eq_getElem?_getD, List.getElem?_concat_length]
      refine ⟨?_, htake0, ?_⟩
      · rw [ih1]
        simp [List.length_append]
        omega
      · intro k hk
        cases k with
        | zero =>
          simp only [Nat.add_zero, List.getD_cons_zero]
          rw [htake0, hgetD]
          exact hf
        | succ k =>
          have hk' : k < rest.length := by
            simpa [Nat.succ_lt_succ_iff] using hk
          have harith : acc.length + (k + 1) = (acc ++ [info]).length + k := by
            simp [List.length_append]
            omega
          rw [harith, List.getD_cons_succ]
          exact ih3 k hk'

theorem processEntryPoints_spec :
    ∀ (eps : List Function) (fns acc out : List FunctionInfo) (gv : List GlobalVariable),
      processEntryPoints fns acc eps gv = some (.ok out) →
      out.length = acc.length + eps.length ∧
      out.take acc.length = acc ∧
      ∀ k, k < eps.length →
        processFunction fns (eps.getD k Function.dummy) gv =
          some (.ok (out.getD (acc.length + k) FunctionInfo.dummy)) := by
  intro eps
  induction eps with
  | nil =>
    intro fns acc out gv h
    simp only [processEntryPoints, Option.some.injEq, Except.ok.injEq] at h
    subst h
    exact ⟨by simp, by simp, fun k hk => by simp at hk⟩
  | cons ep rest ih =>
    intro fns acc out gv h
    simp only [processEntryPoints] at h
    rcases hf : processFunction fns ep gv with _ | e | info
    · rw [hf] at h; simp at h
    · rw [hf] at h; simp at h
    · rw [hf] at h
      obtain ⟨ih1, ih2, ih3⟩ := ih fns (acc ++ [info]) out gv h
      have htake1 : out.take (acc.length + 1) = acc ++ [info] := by
        simpa [List.length_append] using ih2
      have htake0 : out.take acc.length = acc := by
        have h1 : (out.take (acc.length + 1)).take acc.length = out.take acc.length := by
          rw [List.take_take]
          congr 1
          omega
        rw [← h1, htake1]
        simpa using List.take_left acc [info]
      have hgetD : out.getD acc.length FunctionInfo.dummy = info := by
        have h1 : (out.take (acc.length + 1)).getD acc.length FunctionInfo.dummy =
            out.getD acc.length FunctionInfo.dummy := getD_take (Nat.lt_succ_self _)
        rw [← h1, htake1]
        simp [List.getD_eq_getElem?_getD, List.getElem?_concat_length]
      refine ⟨?_, htake0, ?_⟩
      · rw [ih1]
        simp [List.length_append]
        omega
      · intro k hk
        cases k with
        | zero =>
          simp only [Nat.add_zero, List.getD_cons_zero]
          rw [hgetD]
          exact hf
        | succ k =>
          have hk' : k < rest.length := by
            simpa [Nat.succ_lt_succ_iff] using hk
          have harith : acc.length + (k + 1) = (acc ++ [info]).length + k := by
            simp [List.length_append]
            omega
          rw [harith, List.getD_cons_succ]
          exact ih3 k hk'

end Naga
namespace Naga

/-- C5: for every successful analysis, every ordinary function inherits the
global-use masks and sampling sets of each earlier function it calls (through
a `Call` statement or a `Call` expression), and every entry point inherits
those of each ordinary function it calls: elementwise the caller's mask
contains the callee's, and the callee's sampling set is a subset of the
caller's. -/
theorem C5_call_inheritance (m : Module) (a : Analysis)
    (hok : Analysis.new m = some (.ok a)) :
    (∀ k g, k < m.functions.length → g < k →
        funCalls (m.functions.getD k Function.dummy) g = true →
        inheritsFrom (a.functions.getD g FunctionInfo.dummy)
          (a.functions.getD k FunctionInfo.dummy)) ∧
    (∀ j g, j < m.entry_points.length → g < m.functions.length →
        funCalls (m.entry_points.getD j Function.dummy) g = true →
        inheritsFrom (a.functions.getD g FunctionInfo.dummy)
          (a.entry_points.getD j FunctionInfo.dummy)) := by
  obtain ⟨hfuns, heps⟩ := Analysis.new_ok_parts hok
  obtain ⟨hflen, htake, hfstep⟩ := processFunctions_spec _ _ _ _ hfuns
  obtain ⟨helen, hetake, hestep⟩ := processEntryPoints_spec _ _ _ _ _ heps
  simp only [List.length_nil, Nat.zero_add] at hflen hfstep helen hestep
  have hglen : ∀ i, i < m.functions.length →
      (a.functions.getD i FunctionInfo.dummy).global_uses.length =
        m.global_variables.length := by
    intro i hi
    exact (processFunction_calls (hfstep i hi)).1
  constructor
  · intro k g hk hg hcalls
    have hstep := hfstep k hk
    have htk : (a.functions.take k).getD g FunctionInfo.dummy =
        a.functions.getD g FunctionInfo.dummy := getD_take hg
    have hleng : ((a.functions.take k).getD g FunctionInfo.dummy).global_uses.length ≤
        m.global_variables.length := by
      rw [htk, hglen g (lt_trans hg hk)]
    have hres := (processFunction_calls hstep).2 g hcalls hleng
    rw [htk] at hres
    exact hres
  · intro j g hj hg hcalls
    have hstep := hestep j hj
    have hleng : (a.functions.getD g FunctionInfo.dummy).global_uses.length ≤
        m.global_variables.length := by
      rw [hglen g hg]
    exact (processFunction_calls hstep).2 g hcalls hleng

end Naga
namespace Naga

set_option maxHeartbeats 2000000 in
/-- C5 witness: a two-function module where function 1 calls function 0
(which reads global 0) through a `Call` statement, and the entry point calls
function 1; the analysis succeeds and function 1's info inherits function
0's READ use of global 0. -/
theorem C5_witness :
    Analysis.new
        { global_variables :=
            [{ binding := none
               class' := StorageClass.Uniform
               interpolation := none
               storage_access := { load := true, store := false } }]
          functions :=
            [{ expressions := [Expression.GlobalVariable 0]
               body := [Statement.Return (some 0)] },
             { expressions := []
               body := [Statement.Call 0 [] none] }]
          entry_points :=
            [{ expressions := []
               body := [Statement.Call 1 [] none] }] } =
      some (.ok
        { functions :=
            [{ uniformity := { non_uniform_result := none, require_uniform := none }
               may_kill := false
               sampling_set := []
               global_uses := [{ read := true, write := false, query := false }]
               expressions :=
                 [{ uniformity := { non_uniform_result := none, require_uniform := none }
                    ref_count := 1
                    assignable_global := some 0 }] },
             { uniformity := { non_uniform_result := none, require_uniform := none }
               may_kill := false
               sampling_set := []
               global_uses := [{ read := true, write := false, query := false }]
               expressions := [] }]
          entry_points :=
            [{ uniformity := { non_uniform_result := none, require_uniform := none }
               may_kill := false
               sampling_set := []
               global_uses := [{ read := true, write := false, query := false }]
               expressions := [] }] }) ∧
    inheritsFrom
      { uniformity := { non_uniform_result := none, require_uniform := none }
        may_kill := false
        sampling_set := []
        global_uses := [{ read := true, write := false, query := false }]
        expressions :=
          [{ uniformity := { non_uniform_result := none, require_uniform := none }
             ref_count := 1
             assignable_global := some 0 }] }
      { uniformity := { non_uniform_result := none, require_uniform := none }
        may_kill := false
        sampling_set := []
        global_uses := [{ read := true, write := false, query := false }]
        expressions := [] } := by
  refine ⟨rfl, ?_⟩
  exact (C5_call_inheritance
      { global_variables :=
          [{ binding := none
             class' := StorageClass.Uniform
             interpolation := none
             storage_access := { load := true, store := false } }]
        functions :=
          [{ expressions := [Expression.GlobalVariable 0]
             body := [Statement.Return (some 0)] },
           { expressions := []
             body := [Statement.Call 0 [] none] }]
        entry_points :=
          [{ expressions := []
             body := [Statement.Call 1 [] none] }] }
      { functions :=
          [{ uniformity := { non_uniform_result := none, require_uniform := none }
             may_kill := false
             sampling_set := []
             global_uses := [{ read := true, write := false, query := false }]
             expressions :=
               [{ uniformity := { non_uniform_result := none, require_uniform := none }
                  ref_count := 1
                  assignable_global := some 0 }] },
           { uniformity := { non_uniform_result := none, require_uniform := none }
             may_kill := false
             sampling_set := []
             global_uses := [{ read := true, write := false, query := false }]
             expressions := [] }]
        entry_points :=
          [{ uniformity := { non_uniform_result := none, require_uniform := none }
             may_kill := false
             sampling_set := []
             global_uses := [{ read := true, write := false, query := false }]
             expressions := [] }] }
      rfl).1 1 0 (by decide) (by decide) (by rfl)

end Naga
